import Mathlib

/-!
# stream1090 — verification of the demodulation / frame-validation core

Shallow embedding of the hot-path core of the stream1090 Mode S / ADS-B
demodulator (`src/include/CRC.hpp`, `Bits128.hpp`, `ShiftRegisters.hpp`,
`CRCErrorTable.hpp`, `ICAOCache.hpp`, `DemodCore.hpp`) and proofs about it.

Machine integers are embedded as `Nat` with explicit reduction `% 2^w`
wherever C++ unsigned overflow semantics matter.  All definitions follow
the C++ source; the few routines the source calls but does not ship
(`ModeS::extractSquawkAlt_*`, `ModeS::decodeAltitude`) are modelled from
the specification and marked as such.
-/

namespace Stream1090

/-! ## CRC engine (`src/include/CRC.hpp`) -/

namespace CRC

/-- `CRC::polynomial`: the magic 25-bit polynomial `0x1FFF409`. -/
def polynomial : Nat := 0x1FFF409

/-- `CRC::fixop_t`: an operation that xors `pattern` shifted left by `index`. -/
structure fixop_t where
  pattern : Nat
  index : Nat
deriving DecidableEq, Repr

/-- `fixop_t::valid`: a fix-op is valid iff its pattern is non-zero. -/
def fixop_t.valid (op : fixop_t) : Bool :=
  op.pattern != 0

/-- The conditional reduction shared by every CRC loop in the source:
`if (crc & (0x1 << 24)) crc ^= polynomial;`. -/
def reduce25 (x : Nat) : Nat :=
  if x &&& (0x1 <<< 24) ≠ 0 then x ^^^ polynomial else x

/-- `CRC::pushBack`: `crc = (crc << 1) | bit`, then the conditional reduction.
`crc_t` is `uint32_t`, hence the `% 2^32`. -/
def pushBack (crc : Nat) (bit : Bool) : Nat :=
  reduce25 (((crc <<< 1) ||| (if bit then 1 else 0)) % 2^32)

/-- One step of the loop body of `CRC::delta<bitIndex>`: shift left and
subtract the polynomial if a 1 was shifted out (bit 24 became set). -/
def deltaStep (crc : Nat) : Nat :=
  reduce25 ((crc <<< 1) % 2^32)

/-- `CRC::delta<bitIndex>` (the generic template): start from `0x1` and apply
the shift-and-reduce step `bitIndex` times. -/
def delta (bitIndex : Nat) : Nat :=
  deltaStep^[bitIndex] 0x1

/-- `CRC::compute(fixop_t)`: start from the pattern and shift-reduce
`op.index` times.  The loop body is identical to the `delta` loop. -/
def computeOp (op : fixop_t) : Nat :=
  deltaStep^[op.index] op.pattern

/-- `CRC::delta<55>()`, the hard-coded template specialization. -/
def delta55 : Nat := 0x18567

/-- `CRC::delta<111>()`, the hard-coded template specialization. -/
def delta111 : Nat := 0x3935EA

end CRC

/-! ## 128-bit register (`src/include/Bits128.hpp`) -/

/-- `Bits128`: two 64-bit halves.  Embedded as two `Nat`s that the
operations keep below `2^64` exactly where the C++ `uint64_t` wraps. -/
structure Bits128 where
  low : Nat
  high : Nat
deriving DecidableEq, Repr

namespace Bits128

/-- `Bits128::get(i)`: bit `i & 0x3F` of half `i >> 6`. -/
def get (w : Bits128) (i : Nat) : Bool :=
  if i >>> 6 = 0 then w.low.testBit (i &&& 0x3F) else w.high.testBit (i &&& 0x3F)

/-- `Bits128::shiftLeft(int i)` — the two-branch variable left shift.  At
`i = 0` the source executes `low >> (64 - i)` and at `i = 128` it executes
`low << (i - 64)`: a `uint64_t` shifted by its own width, which is
undefined behavior in C++.  x86-64 and AArch64 both reduce a variable
shift count modulo 64, so the de-facto behavior — modelled here by the
explicit `% 64` on the two counts that can reach 64 — is
`high := high ||| low` at `i = 0` and `high := low` at `i = 128`, not the
ideal wrap-around shift. -/
def shiftLeft (w : Bits128) (i : Nat) : Bits128 :=
  if i < 64 then
    { high := ((w.high <<< i) ||| (w.low >>> ((64 - i) % 64))) % 2^64,
      low := (w.low <<< i) % 2^64 }
  else
    { high := (w.low <<< ((i - 64) % 64)) % 2^64,
      low := 0 }

/-- `Bits128::operator^`. -/
def xorb (a b : Bits128) : Bits128 :=
  { low := a.low ^^^ b.low, high := a.high ^^^ b.high }

/-- The value denoted by the register: `high · 2^64 + low`. -/
def toVal (w : Bits128) : Nat :=
  w.high * 2^64 + w.low

/-- In-range states: both halves are genuine `uint64_t` values. -/
def InRange (w : Bits128) : Prop :=
  w.low < 2^64 ∧ w.high < 2^64

instance (w : Bits128) : Decidable (InRange w) := by
  unfold InRange; infer_instance

end Bits128

namespace CRC

/-- `CRC::compute<numBits>` unrolled: process bits `i-1, …, 0` of the window,
most significant first, accumulating with `pushBack`. -/
def computeAux (w : Bits128) : Nat → Nat → Nat
  | 0, acc => acc
  | i + 1, acc => computeAux w i (pushBack acc (w.get i))

/-- `CRC::compute<numBits>(const Bits128&)`: CRC of the low `numBits` bits of
the window, MSB first. -/
def compute (numBits : Nat) (w : Bits128) : Nat :=
  computeAux w numBits 0

/-- `CRC::applyFixOp(fixop_t, Bits128&, offset)`: xor the pattern, shifted
left by `index + offset`, into the 128-bit frame. -/
def applyFixOp (op : fixop_t) (bits : Bits128) (offset : Nat := 0) : Bits128 :=
  bits.xorb (Bits128.shiftLeft { low := op.pattern % 2^64, high := 0 } (op.index + offset))

/-- `CRC::applyFixOp(fixop_t, uint64_t&, offset)`: xor the shifted pattern
into a 56-bit short frame held in a `uint64_t`. -/
def applyFixOpShort (op : fixop_t) (frameShort : Nat) (offset : Nat := 0) : Nat :=
  frameShort ^^^ ((op.pattern <<< (op.index + offset)) % 2^64)

end CRC

/-! ## Shift register bank, right-aligned layout
(`src/include/ShiftRegisters.hpp`, specialization for `RegisterLayout_Right`) -/

/-- The per-stream slice of `ShiftRegistersBase`: the two window halves, the
two CRC accumulators and the two cached downlink-format fields of one phase. -/
structure Phase where
  low : Nat
  high : Nat
  crc56 : Nat
  crc112 : Nat
  df56 : Nat
  df112 : Nat
deriving DecidableEq, Repr

namespace Phase

/-- `ShiftRegistersBase` constructor: everything starts at zero. -/
def init : Phase := ⟨0, 0, 0, 0, 0, 0⟩

/-- The 128-bit window of a phase (`extractFrame`). -/
def window (p : Phase) : Bits128 := ⟨p.low, p.high⟩

/-- The loop body of
`ShiftRegisters<NumStreams, RegisterLayout_Right>::shiftInNewBits` for one
stream: cancel the outgoing bit 111 / bit 55 contributions, shift the window
left inserting the new bit, shift-and-insert into both CRC accumulators, cache
the downlink-format fields, and conditionally reduce both CRCs. -/
def shiftInNewBit (cmp : Bool) (p : Phase) : Phase :=
  let bit : Nat := if cmp then 1 else 0
  let crc112a := if p.high &&& (0x1 <<< 47) ≠ 0 then p.crc112 ^^^ CRC.delta111 else p.crc112
  let crc56a := if p.low &&& (0x1 <<< 55) ≠ 0 then p.crc56 ^^^ CRC.delta55 else p.crc56
  let high := ((p.high <<< 1) ||| (p.low >>> 63)) % 2^64
  let low := ((p.low <<< 1) ||| bit) % 2^64
  let crc112b := ((crc112a <<< 1) ||| bit) % 2^32
  let crc56b := ((crc56a <<< 1) ||| bit) % 2^32
  let df112 := (high >>> 43) &&& 0b11111
  let df56 := (low >>> 51) &&& 0b11111
  let crc112 := if crc112b > 0xffffff then crc112b ^^^ CRC.polynomial else crc112b
  let crc56 := if crc56b > 0xffffff then crc56b ^^^ CRC.polynomial else crc56b
  ⟨low, high, crc56, crc112, df56, df112⟩

/-- `extractAlignedFrameLong` for the right layout: mask the high half to 48
bits. -/
def extractAlignedFrameLong (p : Phase) : Bits128 :=
  ⟨p.low, p.high &&& 0xffffffffffff⟩

/-- `extractAlignedFrameShort` for the right layout: the low 56 bits. -/
def extractAlignedFrameShort (p : Phase) : Nat :=
  p.low &&& 0xffffffffffffff

end Phase

/-- The bank of `NumStreams` phases; `shiftInNewBits` applies the loop body to
every stream with its own comparator bit. -/
def ShiftRegisters := Nat → Phase

/-- `ShiftRegisters::shiftInNewBits(uint32_t* cmp)`: one new bit per stream. -/
def ShiftRegisters.shiftInNewBits (cmp : Nat → Bool) (s : ShiftRegisters) : ShiftRegisters :=
  fun i => Phase.shiftInNewBit (cmp i) (s i)

/-- The freshly constructed bank: all fields zero for every stream. -/
def ShiftRegisters.init : ShiftRegisters := fun _ => Phase.init

/-! ## CRC algebra

The facts below relate the incremental accumulator update in
`shiftInNewBits` to the naive `CRC::compute` and establish the
GF(2)-linearity of the CRC. -/

namespace CRC

lemma and_one_shiftLeft_ne_zero (x n : Nat) :
    (x &&& (0x1 <<< n) ≠ 0) ↔ x.testBit n = true := by
  rw [Nat.one_shiftLeft, Nat.and_two_pow]
  cases h : x.testBit n
  · simp
  · simp [(Nat.two_pow_pos n).ne']

lemma reduce25_eq (x : Nat) :
    reduce25 x = if x.testBit 24 = true then x ^^^ polynomial else x := by
  unfold reduce25
  by_cases h : x.testBit 24 = true
  · rw [if_pos ((and_one_shiftLeft_ne_zero x 24).mpr h), if_pos h]
  · rw [if_neg (fun hc => h ((and_one_shiftLeft_ne_zero x 24).mp hc)), if_neg h]

lemma xor_xor_cancel (a b c : Nat) : (a ^^^ c) ^^^ (b ^^^ c) = a ^^^ b := by
  calc (a ^^^ c) ^^^ (b ^^^ c) = a ^^^ (c ^^^ (b ^^^ c)) := by rw [Nat.xor_assoc]
    _ = a ^^^ (c ^^^ (c ^^^ b)) := by rw [Nat.xor_comm b c]
    _ = a ^^^ ((c ^^^ c) ^^^ b) := by rw [Nat.xor_assoc]
    _ = a ^^^ b := by rw [Nat.xor_self, Nat.zero_xor]

lemma xor_right_comm (a b c : Nat) : (a ^^^ b) ^^^ c = (a ^^^ c) ^^^ b := by
  rw [Nat.xor_assoc, Nat.xor_comm b c, ← Nat.xor_assoc]

/-- The reduction step is GF(2)-linear. -/
lemma reduce25_xor (x y : Nat) :
    reduce25 (x ^^^ y) = reduce25 x ^^^ reduce25 y := by
  rw [reduce25_eq, reduce25_eq, reduce25_eq, Nat.testBit_xor]
  cases hx : x.testBit 24 <;> cases hy : y.testBit 24
  · rw [if_neg (by decide), if_neg (by decide), if_neg (by decide)]
  · rw [if_pos (by decide), if_neg (by decide), if_pos (by decide), Nat.xor_assoc]
  · rw [if_pos (by decide), if_pos (by decide), if_neg (by decide)]
    exact xor_right_comm x y polynomial
  · rw [if_neg (by decide), if_pos (by decide), if_pos (by decide)]
    exact (xor_xor_cancel x y polynomial).symm

/-- Reduction brings any 25-bit value below `2^24`. -/
lemma reduce25_lt {x : Nat} (h : x < 2^25) : reduce25 x < 2^24 := by
  rw [reduce25_eq]
  by_cases hb : x.testBit 24 = true
  · rw [if_pos hb]
    apply Nat.lt_pow_two_of_testBit
    intro i hi
    rcases Nat.eq_or_lt_of_le hi with rfl | hi'
    · simp [Nat.testBit_xor, hb]
      decide
    · have hx : x < 2^i := lt_of_lt_of_le h (Nat.pow_le_pow_right (by norm_num) hi')
      have hp : polynomial < 2^i :=
        lt_of_lt_of_le (by norm_num [polynomial]) (Nat.pow_le_pow_right (by norm_num) hi')
      simp [Nat.testBit_xor, Nat.testBit_lt_two_pow hx, Nat.testBit_lt_two_pow hp]
  · rw [if_neg hb]
    apply Nat.lt_pow_two_of_testBit
    intro i hi
    rcases Nat.eq_or_lt_of_le hi with rfl | hi'
    · exact Bool.eq_false_iff.mpr hb ▸ rfl
    · exact Nat.testBit_lt_two_pow (lt_of_lt_of_le h (Nat.pow_le_pow_right (by norm_num) hi'))

lemma shiftLeft_one_or_bit (c u : Nat) (hu : u < 2) :
    (c <<< 1) ||| u = 2 * c + u := by
  rw [Nat.shiftLeft_eq, pow_one, Nat.mul_comm]
  exact (Nat.mul_add_lt_is_or (i := 1) (by omega) c).symm

lemma pushBack_eq {c : Nat} (b : Bool) (hc : c < 2^24) :
    pushBack c b = reduce25 (2 * c + (if b then 1 else 0)) := by
  have h24 : (2:Nat)^24 = 16777216 := by norm_num
  unfold pushBack
  rw [shiftLeft_one_or_bit c _ (by rcases b <;> norm_num),
    Nat.mod_eq_of_lt (by rcases b <;> simp <;> omega)]

lemma deltaStep_eq {d : Nat} (hd : d < 2^24) :
    deltaStep d = reduce25 (2 * d) := by
  have h24 : (2:Nat)^24 = 16777216 := by norm_num
  unfold deltaStep
  rw [Nat.shiftLeft_eq, pow_one, Nat.mod_eq_of_lt (by omega),
    show d * 2 = 2 * d by ring]

lemma pushBack_lt {c : Nat} (b : Bool) (hc : c < 2^24) : pushBack c b < 2^24 := by
  rw [pushBack_eq b hc]
  exact reduce25_lt (by rcases b <;> simp <;> omega)

lemma deltaStep_lt {d : Nat} (hd : d < 2^24) : deltaStep d < 2^24 := by
  rw [deltaStep_eq hd]
  exact reduce25_lt (by omega)

lemma deltaStep_iterate_lt {d : Nat} (i : Nat) (hd : d < 2^24) :
    deltaStep^[i] d < 2^24 := by
  induction i generalizing d with
  | zero => exact hd
  | succ i ih => rw [Function.iterate_succ_apply]; exact ih (deltaStep_lt hd)

lemma xor_two_mul_add {u v : Nat} (c d : Nat) (hu : u < 2) (hv : v < 2) :
    (2 * c + u) ^^^ (2 * d + v) = 2 * (c ^^^ d) + (u ^^^ v) := by
  have huv : u ^^^ v < 2 := Nat.xor_lt_two_pow (n := 1) hu hv
  apply Nat.eq_of_testBit_eq
  intro i
  match i with
  | 0 =>
    rw [Nat.testBit_xor]
    simp only [Nat.testBit_zero]
    have h1 : (2 * c + u) % 2 = u := by omega
    have h2 : (2 * d + v) % 2 = v := by omega
    have h3 : (2 * (c ^^^ d) + (u ^^^ v)) % 2 = u ^^^ v := by omega
    rw [h1, h2, h3]
    interval_cases u <;> interval_cases v <;> decide
  | i + 1 =>
    rw [Nat.testBit_xor, Nat.testBit_add_one, Nat.testBit_add_one, Nat.testBit_add_one]
    have h1 : (2 * c + u) / 2 = c := by omega
    have h2 : (2 * d + v) / 2 = d := by omega
    have h3 : (2 * (c ^^^ d) + (u ^^^ v)) / 2 = c ^^^ d := by omega
    rw [h1, h2, h3]
    exact (Nat.testBit_xor c d i).symm

/-- `pushBack` is GF(2)-linear in the accumulator and the incoming bit. -/
lemma pushBack_xor {c d : Nat} (b1 b2 : Bool) (hc : c < 2^24) (hd : d < 2^24) :
    pushBack (c ^^^ d) (xor b1 b2) = pushBack c b1 ^^^ pushBack d b2 := by
  rw [pushBack_eq _ (Nat.xor_lt_two_pow hc hd), pushBack_eq _ hc, pushBack_eq _ hd,
    ← reduce25_xor, xor_two_mul_add c d (by rcases b1 <;> simp) (by rcases b2 <;> simp)]
  congr 1
  rcases b1 <;> rcases b2 <;> rfl

lemma pushBack_false_eq_deltaStep {d : Nat} (hd : d < 2^24) :
    pushBack d false = deltaStep d := by
  rw [pushBack_eq false hd, deltaStep_eq hd]
  rfl

lemma computeAux_lt (w : Bits128) (i : Nat) {acc : Nat} (h : acc < 2^24) :
    computeAux w i acc < 2^24 := by
  induction i generalizing acc with
  | zero => exact h
  | succ i ih => exact ih (pushBack_lt _ h)

lemma compute_lt (numBits : Nat) (w : Bits128) : compute numBits w < 2^24 :=
  computeAux_lt w numBits (by norm_num)

lemma get_xorb (a b : Bits128) (i : Nat) :
    (a.xorb b).get i = xor (a.get i) (b.get i) := by
  unfold Bits128.get Bits128.xorb
  by_cases h : i >>> 6 = 0
  · simp [h, Nat.testBit_xor]
  · simp [h, Nat.testBit_xor]

/-- `computeAux` is GF(2)-linear in the window and the accumulator. -/
lemma computeAux_xor (w₁ w₂ : Bits128) (i : Nat) {c d : Nat}
    (hc : c < 2^24) (hd : d < 2^24) :
    computeAux (w₁.xorb w₂) i (c ^^^ d) = computeAux w₁ i c ^^^ computeAux w₂ i d := by
  induction i generalizing c d with
  | zero => rfl
  | succ i ih =>
    show computeAux (w₁.xorb w₂) i (pushBack (c ^^^ d) ((w₁.xorb w₂).get i)) = _
    rw [get_xorb, pushBack_xor _ _ hc hd]
    exact ih (pushBack_lt _ hc) (pushBack_lt _ hd)

lemma xorb_zero (w : Bits128) : w.xorb ⟨0, 0⟩ = w := by
  simp [Bits128.xorb]

lemma deltaStep_zero : deltaStep 0 = 0 := by decide

/-- Pushing the zero window through `computeAux` iterates `deltaStep`. -/
lemma computeAux_zero_window (i : Nat) {d : Nat} (hd : d < 2^24) :
    computeAux ⟨0, 0⟩ i d = deltaStep^[i] d := by
  induction i generalizing d with
  | zero => rfl
  | succ i ih =>
    show computeAux ⟨0, 0⟩ i (pushBack d (Bits128.get ⟨0, 0⟩ i)) = _
    have hg : Bits128.get ⟨0, 0⟩ i = false := by
      unfold Bits128.get
      by_cases h : i >>> 6 = 0 <;> simp [h]
    rw [hg, pushBack_false_eq_deltaStep hd, ih (deltaStep_lt hd),
      ← Function.iterate_succ_apply]

/-- Linearity of `compute` in the window. -/
lemma compute_xor (numBits : Nat) (w₁ w₂ : Bits128) :
    compute numBits (w₁.xorb w₂) = compute numBits w₁ ^^^ compute numBits w₂ := by
  unfold compute
  have h := computeAux_xor w₁ w₂ numBits (c := 0) (d := 0) (by norm_num) (by norm_num)
  simpa using h

/-- Dropping the most significant processed bit: the CRC over `i+1` bits is
the CRC over `i` bits xor the `delta` contribution of bit `i`. -/
lemma compute_succ (w : Bits128) (i : Nat) :
    compute (i + 1) w = compute i w ^^^ (if w.get i then delta i else 0) := by
  show computeAux w i (pushBack 0 (w.get i)) = _
  have h0 : pushBack 0 (w.get i) = 0 ^^^ (if w.get i then 1 else 0) := by
    rcases h : w.get i <;> rfl
  have hx := computeAux_xor w ⟨0, 0⟩ i (c := 0) (d := if w.get i then 1 else 0)
      (by norm_num) (by rcases w.get i <;> simp)
  rw [xorb_zero] at hx
  rw [h0, hx, computeAux_zero_window i (by rcases w.get i <;> simp)]
  rcases h : w.get i
  · show computeAux w i 0 ^^^ deltaStep^[i] 0 = computeAux w i 0 ^^^ 0
    rw [Function.iterate_fixed deltaStep_zero i]
  · rfl

/-- Appending a fresh least-significant bit: if `w'` is `w` shifted left one
with `b` inserted at position 0, the CRC over `i+1` bits of `w'` is one
`pushBack` step on the CRC over `i` bits of `w`. -/
lemma computeAux_shift {w w' : Bits128} {b : Bool} (h0 : w'.get 0 = b) :
    ∀ i, (∀ j, j < i → w'.get (j + 1) = w.get j) →
    ∀ acc, computeAux w' (i + 1) acc = pushBack (computeAux w i acc) b := by
  intro i
  induction i with
  | zero =>
    intro _ acc
    show pushBack acc (w'.get 0) = pushBack acc b
    rw [h0]
  | succ i ih =>
    intro h acc
    show computeAux w' (i + 1) (pushBack acc (w'.get (i + 1))) = _
    rw [h i (Nat.lt_succ_self i)]
    exact ih (fun j hj => h j (Nat.lt_succ_of_lt hj)) (pushBack acc (w.get i))

end CRC

namespace Bits128

lemma get_low {w : Bits128} {i : Nat} (h : i < 64) : w.get i = w.low.testBit i := by
  unfold get
  rw [if_pos, show i &&& 0x3F = i % 64 from Nat.and_pow_two_sub_one_eq_mod i 6,
    Nat.mod_eq_of_lt h]
  rw [Nat.shiftRight_eq_div_pow]
  exact Nat.div_eq_of_lt h

lemma get_high {w : Bits128} {i : Nat} (h64 : 64 ≤ i) (h : i < 128) :
    w.get i = w.high.testBit (i - 64) := by
  unfold get
  rw [if_neg, show i &&& 0x3F = i % 64 from Nat.and_pow_two_sub_one_eq_mod i 6,
    show i % 64 = i - 64 by omega]
  rw [Nat.shiftRight_eq_div_pow]
  have : i / 64 = 1 := by omega
  omega

end Bits128

namespace CRC

lemma gt_ffffff_iff {x : Nat} (h : x < 2^25) :
    (x > 0xffffff) ↔ x.testBit 24 = true := by
  have ht := Nat.toNat_testBit x 24
  have e24 : (2:Nat)^24 = 16777216 := by norm_num
  have e25 : (2:Nat)^25 = 33554432 := by norm_num
  cases hb : x.testBit 24 <;> rw [hb] at ht <;> simp at ht <;> simp [hb] <;> omega

/-- The `if (crc > 0xffffff)` reduction written in `shiftInNewBits` agrees
with the `if (crc & (0x1 << 24))` reduction written in `pushBack`. -/
lemma ite_gt_ffffff_eq_reduce25 {x : Nat} (h : x < 2^25) :
    (if x > 0xffffff then x ^^^ polynomial else x) = reduce25 x := by
  rw [reduce25_eq]
  by_cases hb : x.testBit 24 = true
  · rw [if_pos ((gt_ffffff_iff h).mpr hb), if_pos hb]
  · rw [if_neg (fun hc => hb ((gt_ffffff_iff h).mp hc)), if_neg hb]

/-- The accumulator update of `shiftInNewBits` (shift-or followed by the
`> 0xffffff` reduction) is exactly one `pushBack` step. -/
lemma accum_step_eq_pushBack {c : Nat} (hc : c < 2^24) (b : Bool) :
    (if ((c <<< 1) ||| (if b then 1 else 0)) % 2^32 > 0xffffff
     then (((c <<< 1) ||| (if b then 1 else 0)) % 2^32) ^^^ polynomial
     else ((c <<< 1) ||| (if b then 1 else 0)) % 2^32) = pushBack c b := by
  have e24 : (2:Nat)^24 = 16777216 := by norm_num
  have hv : ((c <<< 1) ||| (if b then 1 else 0)) % 2^32 = 2 * c + (if b then 1 else 0) := by
    rw [shiftLeft_one_or_bit c _ (by rcases b <;> norm_num)]
    exact Nat.mod_eq_of_lt (by rcases b <;> simp <;> omega)
  rw [hv, pushBack_eq b hc, ite_gt_ffffff_eq_reduce25 (by rcases b <;> simp <;> omega)]

end CRC

/-! ## The incremental-CRC invariant (claim C1) -/

namespace Phase

open CRC

/-- The C1 invariant of one phase: both window halves are in `uint64_t`
range and the two accumulators hold the naive CRC of the low 56 and the low
112 bits of the window. -/
def Inv (p : Phase) : Prop :=
  p.low < 2^64 ∧ p.high < 2^64 ∧
  p.crc56 = compute 56 p.window ∧ p.crc112 = compute 112 p.window

lemma compute_zero_window_eq (k : Nat) : compute k ⟨0, 0⟩ = 0 := by
  unfold compute
  rw [computeAux_zero_window k (by norm_num)]
  exact Function.iterate_fixed deltaStep_zero k

lemma init_inv : Inv init := by
  refine ⟨by norm_num [init], by norm_num [init], ?_, ?_⟩ <;>
    simp [init, window, compute_zero_window_eq]

lemma shiftInNewBit_low (cmp : Bool) (p : Phase) :
    (shiftInNewBit cmp p).low = ((p.low <<< 1) ||| (if cmp then 1 else 0)) % 2^64 := rfl

lemma shiftInNewBit_high (cmp : Bool) (p : Phase) :
    (shiftInNewBit cmp p).high = ((p.high <<< 1) ||| (p.low >>> 63)) % 2^64 := rfl

lemma window_shift_get_zero {p : Phase} (hl : p.low < 2^64) (cmp : Bool) :
    (shiftInNewBit cmp p).window.get 0 = cmp := by
  rw [Bits128.get_low (by norm_num)]
  show (((p.low <<< 1) ||| (if cmp then 1 else 0)) % 2^64).testBit 0 = cmp
  rw [shiftLeft_one_or_bit p.low _ (by rcases cmp <;> norm_num), Nat.testBit_zero]
  have : (2 * p.low + (if cmp then 1 else 0)) % 2^64 % 2 =
      (2 * p.low + (if cmp then 1 else 0)) % 2 :=
    Nat.mod_mod_of_dvd _ (by norm_num)
  rw [this]
  rcases cmp <;> simp <;> omega

lemma window_shift_get_succ {p : Phase} (hl : p.low < 2^64) (hh : p.high < 2^64)
    (cmp : Bool) {j : Nat} (hj : j < 127) :
    (shiftInNewBit cmp p).window.get (j + 1) = p.window.get j := by
  have e64 : (2:Nat)^64 = 18446744073709551616 := by norm_num
  have hd2 : p.low >>> 63 < 2 := by
    rw [Nat.shiftRight_eq_div_pow]
    have : (2:Nat)^63 = 9223372036854775808 := by norm_num
    omega
  rcases Nat.lt_or_ge (j + 1) 64 with h64 | h64
  · -- both indices fall in the low half
    rw [Bits128.get_low h64, Bits128.get_low (by omega)]
    show ((((p.low <<< 1) ||| (if cmp then 1 else 0)) % 2^64).testBit (j+1)) = _
    rw [shiftLeft_one_or_bit p.low _ (by rcases cmp <;> norm_num),
      Nat.testBit_mod_two_pow]
    have hdiv : (2 * p.low + (if cmp then 1 else 0)) / 2 = p.low := by
      rcases cmp <;> simp <;> omega
    rw [Nat.testBit_add_one, hdiv]
    simp [h64, window]
  · rcases Nat.lt_or_ge j 64 with hj64 | hj64
    · -- j = 63 crosses from the low into the high half
      have hj63 : j = 63 := by omega
      subst hj63
      rw [Bits128.get_high (by norm_num) (by norm_num), Bits128.get_low (by norm_num)]
      show (((p.high <<< 1) ||| (p.low >>> 63)) % 2^64).testBit 0 = p.low.testBit 63
      rw [shiftLeft_one_or_bit p.high _ hd2, Nat.testBit_zero]
      have hmod : (2 * p.high + p.low >>> 63) % 2^64 % 2 =
          (2 * p.high + p.low >>> 63) % 2 := Nat.mod_mod_of_dvd _ (by norm_num)
      rw [hmod]
      have ht63 := Nat.toNat_testBit p.low 63
      rw [Nat.shiftRight_eq_div_pow] at hd2 ⊢
      cases hb : p.low.testBit 63 <;> rw [hb] at ht63 <;> simp at ht63 <;> simp <;> omega
    · -- both indices fall in the high half
      rw [Bits128.get_high (by omega) (by omega), Bits128.get_high hj64 (by omega)]
      show (((p.high <<< 1) ||| (p.low >>> 63)) % 2^64).testBit (j + 1 - 64) = _
      rw [shiftLeft_one_or_bit p.high _ hd2, Nat.testBit_mod_two_pow]
      have hstep : j + 1 - 64 = (j - 64) + 1 := by omega
      have hdiv : (2 * p.high + p.low >>> 63) / 2 = p.high := by omega
      rw [hstep, Nat.testBit_add_one, hdiv]
      simp [show j - 64 + 1 < 64 by omega, window]

lemma shiftInNewBit_crc56 (cmp : Bool) (p : Phase) :
    (shiftInNewBit cmp p).crc56 =
      (if ((if p.low &&& (0x1 <<< 55) ≠ 0 then p.crc56 ^^^ delta55 else p.crc56) <<< 1 |||
            (if cmp then 1 else 0)) % 2^32 > 0xffffff
       then (((if p.low &&& (0x1 <<< 55) ≠ 0 then p.crc56 ^^^ delta55 else p.crc56) <<< 1 |||
            (if cmp then 1 else 0)) % 2^32) ^^^ polynomial
       else ((if p.low &&& (0x1 <<< 55) ≠ 0 then p.crc56 ^^^ delta55 else p.crc56) <<< 1 |||
            (if cmp then 1 else 0)) % 2^32) := rfl

lemma shiftInNewBit_crc112 (cmp : Bool) (p : Phase) :
    (shiftInNewBit cmp p).crc112 =
      (if ((if p.high &&& (0x1 <<< 47) ≠ 0 then p.crc112 ^^^ delta111 else p.crc112) <<< 1 |||
            (if cmp then 1 else 0)) % 2^32 > 0xffffff
       then (((if p.high &&& (0x1 <<< 47) ≠ 0 then p.crc112 ^^^ delta111 else p.crc112) <<< 1 |||
            (if cmp then 1 else 0)) % 2^32) ^^^ polynomial
       else ((if p.high &&& (0x1 <<< 47) ≠ 0 then p.crc112 ^^^ delta111 else p.crc112) <<< 1 |||
            (if cmp then 1 else 0)) % 2^32) := rfl

/-- One `shiftInNewBits` loop iteration preserves the C1 invariant: the
delta-cancel update keeps both accumulators equal to the naive recompute. -/
lemma shiftInNewBit_inv {p : Phase} (hp : Inv p) (cmp : Bool) :
    Inv (shiftInNewBit cmp p) := by
  obtain ⟨hl, hh, h56, h112⟩ := hp
  have hl' : (shiftInNewBit cmp p).low < 2^64 := by
    rw [shiftInNewBit_low]; exact Nat.mod_lt _ (by norm_num)
  have hh' : (shiftInNewBit cmp p).high < 2^64 := by
    rw [shiftInNewBit_high]; exact Nat.mod_lt _ (by norm_num)
  refine ⟨hl', hh', ?_, ?_⟩
  · rw [shiftInNewBit_crc56]
    set c56a := if p.low &&& (0x1 <<< 55) ≠ 0 then p.crc56 ^^^ delta55 else p.crc56 with hc56a
    have hca : c56a = compute 55 p.window := by
      have hd : delta 55 = delta55 := by set_option maxRecDepth 2000 in decide
      by_cases hb : p.window.get 55 = true
      · rw [hc56a,
          if_pos (by rw [and_one_shiftLeft_ne_zero]
                     rw [Bits128.get_low (by norm_num)] at hb; exact hb),
          h56, compute_succ p.window 55, if_pos hb, hd,
          Nat.xor_assoc, Nat.xor_self, Nat.xor_zero]
      · rw [hc56a,
          if_neg (by rw [and_one_shiftLeft_ne_zero]
                     rw [Bits128.get_low (by norm_num)] at hb; exact hb),
          h56, compute_succ p.window 55, if_neg hb, Nat.xor_zero]
    have hlt : c56a < 2^24 := hca ▸ compute_lt 55 p.window
    calc (if ((c56a <<< 1) ||| (if cmp then 1 else 0)) % 2^32 > 0xffffff
          then (((c56a <<< 1) ||| (if cmp then 1 else 0)) % 2^32) ^^^ polynomial
          else ((c56a <<< 1) ||| (if cmp then 1 else 0)) % 2^32)
        = pushBack c56a cmp := accum_step_eq_pushBack hlt cmp
      _ = pushBack (compute 55 p.window) cmp := by rw [hca]
      _ = compute 56 (shiftInNewBit cmp p).window := by
          show _ = computeAux (shiftInNewBit cmp p).window (55 + 1) 0
          exact (computeAux_shift (window_shift_get_zero hl cmp) 55
            (fun j hj => window_shift_get_succ hl hh cmp (by omega)) 0).symm
  · rw [shiftInNewBit_crc112]
    set c112a := if p.high &&& (0x1 <<< 47) ≠ 0 then p.crc112 ^^^ delta111 else p.crc112
      with hc112a
    have hca : c112a = compute 111 p.window := by
      have hd : delta 111 = delta111 := by set_option maxRecDepth 4000 in decide
      by_cases hb : p.window.get 111 = true
      · rw [hc112a,
          if_pos (by rw [and_one_shiftLeft_ne_zero]
                     rw [Bits128.get_high (by norm_num) (by norm_num)] at hb; exact hb),
          h112, compute_succ p.window 111, if_pos hb, hd,
          Nat.xor_assoc, Nat.xor_self, Nat.xor_zero]
      · rw [hc112a,
          if_neg (by rw [and_one_shiftLeft_ne_zero]
                     rw [Bits128.get_high (by norm_num) (by norm_num)] at hb; exact hb),
          h112, compute_succ p.window 111, if_neg hb, Nat.xor_zero]
    have hlt : c112a < 2^24 := hca ▸ compute_lt 111 p.window
    calc (if ((c112a <<< 1) ||| (if cmp then 1 else 0)) % 2^32 > 0xffffff
          then (((c112a <<< 1) ||| (if cmp then 1 else 0)) % 2^32) ^^^ polynomial
          else ((c112a <<< 1) ||| (if cmp then 1 else 0)) % 2^32)
        = pushBack c112a cmp := accum_step_eq_pushBack hlt cmp
      _ = pushBack (compute 111 p.window) cmp := by rw [hca]
      _ = compute 112 (shiftInNewBit cmp p).window := by
          show _ = computeAux (shiftInNewBit cmp p).window (111 + 1) 0
          exact (computeAux_shift (window_shift_get_zero hl cmp) 111
            (fun j hj => window_shift_get_succ hl hh cmp (by omega)) 0).symm

end Phase

/-- Run the bank over a list of per-tick comparator inputs, starting from
the all-zero constructed state. -/
def ShiftRegisters.run (inputs : List (Nat → Bool)) : ShiftRegisters :=
  inputs.foldl (fun s cmp => s.shiftInNewBits cmp) ShiftRegisters.init

lemma ShiftRegisters.run_inv (inputs : List (Nat → Bool)) :
    ∀ (s : ShiftRegisters), (∀ q, Phase.Inv (s q)) →
    ∀ q, Phase.Inv ((inputs.foldl (fun t cmp => t.shiftInNewBits cmp) s) q) := by
  induction inputs with
  | nil => intro s hs q; exact hs q
  | cons c rest ih =>
    intro s hs q
    exact ih _ (fun r => Phase.shiftInNewBit_inv (hs r) (c r)) q

/-- C1: for every sequence of `shiftInNewBits` calls on the right-aligned
`ShiftRegisters`, starting from the all-zero initial state, and for every
phase `p`, after each call `crc_56[p]` equals `CRC::compute<56>` of the low
56 bits of that phase's window and `crc_112[p]` equals `CRC::compute<112>`
of the low 112 bits (MSB first, bit `k-1` down to bit `0`): the incremental
delta-cancel update is equivalent to the naive recompute. -/
theorem crc_incremental_equivalence (inputs : List (Nat → Bool)) (p : Nat) :
    (ShiftRegisters.run inputs p).crc56 =
      CRC.compute 56 (ShiftRegisters.run inputs p).window ∧
    (ShiftRegisters.run inputs p).crc112 =
      CRC.compute 112 (ShiftRegisters.run inputs p).window := by
  have h := ShiftRegisters.run_inv inputs ShiftRegisters.init
    (fun _ => Phase.init_inv) p
  exact ⟨h.2.2.1, h.2.2.2⟩

/-! ## Error tables (`src/include/CRCErrorTable.hpp`) -/

namespace CRC

/-- `CRC::BaseErrorTable<size>`: a direct-map table from CRC residue to
fix-op.  `m_keys[i] == 0` marks an empty slot. -/
structure BaseErrorTable where
  size : Nat
  keys : Nat → Nat
  ops : Nat → fixop_t

/-- The `BaseErrorTable` constructor: all keys zero, all ops `{0,0}`. -/
def BaseErrorTable.mkEmpty (size : Nat) : BaseErrorTable :=
  { size := size, keys := fun _ => 0, ops := fun _ => ⟨0, 0⟩ }

/-- `BaseErrorTable::lookup`: bucket `crc mod size`; return the stored op iff
the stored key matches, the identity op otherwise. -/
def BaseErrorTable.lookup (t : BaseErrorTable) (crc : Nat) : fixop_t :=
  if t.keys (crc % t.size) = crc then t.ops (crc % t.size) else ⟨0, 0⟩

/-- `BaseErrorTable::insert`: write key and op at bucket `compute(op) mod
size` iff the bucket is still empty. -/
def BaseErrorTable.insert (t : BaseErrorTable) (op : fixop_t) : BaseErrorTable :=
  if t.keys (computeOp op % t.size) = 0 then
    { t with keys := Function.update t.keys (computeOp op % t.size) (computeOp op),
             ops := Function.update t.ops (computeOp op % t.size) op }
  else t

/-- The fix-ops inserted by the `DF17ErrorTableExperimental` constructor, in
construction order: single-bit errors at 0..106, `11` bursts at 0..105,
`111` bursts at 0..104, and the `10000001` pattern at parity positions
0..15. -/
def df17ops : List fixop_t :=
  ((List.range (112 - 5)).map (fun i => ⟨0x1, i⟩)) ++
  ((List.range (111 - 5)).map (fun i => ⟨0x3, i⟩)) ++
  ((List.range (110 - 5)).map (fun i => ⟨0x7, i⟩)) ++
  ((List.range 16).map (fun i => ⟨129, i⟩))

/-- The fix-ops inserted by the `DF11ErrorTableExperimental` constructor:
single-bit errors at 0..50 and `11` bursts at 0..49. -/
def df11ops : List fixop_t :=
  ((List.range (56 - 5)).map (fun i => ⟨0x1, i⟩)) ++
  ((List.range (55 - 5)).map (fun i => ⟨0x3, i⟩))

/-- `CRC::df17ErrorTable`, the instantiated `DF17ErrorTableExperimental` of
size 4859. -/
def df17ErrorTable : BaseErrorTable :=
  df17ops.foldl BaseErrorTable.insert (BaseErrorTable.mkEmpty 4859)

/-- `CRC::df11ErrorTable`, the instantiated `DF11ErrorTableExperimental` of
size 469. -/
def df11ErrorTable : BaseErrorTable :=
  df11ops.foldl BaseErrorTable.insert (BaseErrorTable.mkEmpty 469)

lemma insert_size (t : BaseErrorTable) (op : fixop_t) :
    (t.insert op).size = t.size := by
  unfold BaseErrorTable.insert
  split <;> rfl

lemma foldl_insert_size (l : List fixop_t) (t : BaseErrorTable) :
    (l.foldl BaseErrorTable.insert t).size = t.size := by
  induction l generalizing t with
  | nil => rfl
  | cons op rest ih => rw [List.foldl_cons, ih, insert_size]

lemma insert_preserve {t : BaseErrorTable} {op : fixop_t} {b : Nat}
    (hb : computeOp op % t.size ≠ b) :
    (t.insert op).keys b = t.keys b ∧ (t.insert op).ops b = t.ops b := by
  unfold BaseErrorTable.insert
  split
  · exact ⟨Function.update_noteq (fun h => hb h.symm) _ _,
      Function.update_noteq (fun h => hb h.symm) _ _⟩
  · exact ⟨rfl, rfl⟩

lemma foldl_insert_preserve {S : Nat} (l : List fixop_t) (t : BaseErrorTable)
    (hsz : t.size = S) {b : Nat} (hb : ∀ op ∈ l, computeOp op % S ≠ b) :
    (l.foldl BaseErrorTable.insert t).keys b = t.keys b ∧
    (l.foldl BaseErrorTable.insert t).ops b = t.ops b := by
  induction l generalizing t with
  | nil => exact ⟨rfl, rfl⟩
  | cons op rest ih =>
    rw [List.foldl_cons]
    have h1 := @insert_preserve t op _
      (hsz ▸ hb op (List.mem_cons_self op rest))
    have h2 := ih (t.insert op) (by rw [insert_size, hsz])
      (fun o ho => hb o (List.mem_cons_of_mem op ho))
    exact ⟨h2.1.trans h1.1, h2.2.trans h1.2⟩

/-- Generic perfect-hash correctness: if all inserted ops hash to pairwise
distinct buckets of the initially empty table, every one of them is returned
verbatim by `lookup` of its residue. -/
lemma foldl_insert_lookup {S : Nat} (hS : 0 < S) :
    ∀ (l : List fixop_t) (t : BaseErrorTable), t.size = S →
      (l.map (fun op => computeOp op % S)).Nodup →
      (∀ op ∈ l, t.keys (computeOp op % S) = 0) →
      ∀ op ∈ l, (l.foldl BaseErrorTable.insert t).lookup (computeOp op) = op := by
  intro l
  induction l with
  | nil => intro t _ _ _ op hop; exact absurd hop (List.not_mem_nil op)
  | cons op₀ rest ih =>
    intro t hsz hnodup hfresh op hop
    rw [List.map_cons, List.nodup_cons] at hnodup
    have hb₀ : (t.insert op₀).keys (computeOp op₀ % S) = computeOp op₀ ∧
        (t.insert op₀).ops (computeOp op₀ % S) = op₀ := by
      unfold BaseErrorTable.insert
      rw [if_pos (by rw [hsz]; exact hfresh op₀ (List.mem_cons_self op₀ rest))]
      constructor
      · show Function.update t.keys (computeOp op₀ % t.size) (computeOp op₀) _ = _
        rw [hsz, Function.update_same]
      · show Function.update t.ops (computeOp op₀ % t.size) op₀ _ = _
        rw [hsz, Function.update_same]
    rcases List.mem_cons.mp hop with rfl | hmem
    · -- the head op: its bucket is never touched again
      have hpres := foldl_insert_preserve rest (t.insert op)
        (by rw [insert_size, hsz])
        (b := computeOp op % S)
        (fun o ho h => hnodup.1 (h ▸ List.mem_map_of_mem _ ho))
      rw [List.foldl_cons]
      unfold BaseErrorTable.lookup
      rw [foldl_insert_size, insert_size, hsz]
      rw [hpres.1, hb₀.1, if_pos rfl, hpres.2, hb₀.2]
    · -- an op of the tail: apply the induction hypothesis
      rw [List.foldl_cons]
      refine ih (t.insert op₀) (by rw [insert_size, hsz]) hnodup.2 ?_ op hmem
      intro o ho
      have hne : computeOp o % S ≠ computeOp op₀ % S := by
        intro h
        exact hnodup.1 (h ▸ List.mem_map_of_mem _ ho)
      rw [(insert_preserve (hsz ▸ hne.symm)).1]
      exact hfresh o (List.mem_cons_of_mem op₀ ho)

end CRC

set_option maxRecDepth 100000 in
set_option maxHeartbeats 8000000 in
/-- C3: every fix-op inserted by the constructors of the DF17 error table
(size 4859: single bits at 0..106, `11` bursts at 0..105, `111` bursts at
0..104, pattern 129 at 0..15) and of the DF11 error table (size 469: single
bits at 0..50, `11` bursts at 0..49) lands in its own bucket under
`compute(op) mod size` — no two collide — and `lookup(compute(op))` returns
exactly `op`. -/
theorem error_tables_perfect_hash :
    ((CRC.df17ops.map (fun op => CRC.computeOp op % 4859)).Nodup ∧
      ∀ op ∈ CRC.df17ops, CRC.df17ErrorTable.lookup (CRC.computeOp op) = op) ∧
    ((CRC.df11ops.map (fun op => CRC.computeOp op % 469)).Nodup ∧
      ∀ op ∈ CRC.df11ops, CRC.df11ErrorTable.lookup (CRC.computeOp op) = op) := by
  have h17 : (CRC.df17ops.map (fun op => CRC.computeOp op % 4859)).Nodup := by decide
  have h11 : (CRC.df11ops.map (fun op => CRC.computeOp op % 469)).Nodup := by decide
  refine ⟨⟨h17, ?_⟩, ⟨h11, ?_⟩⟩
  · exact CRC.foldl_insert_lookup (by decide) CRC.df17ops _ rfl h17 (fun _ _ => rfl)
  · exact CRC.foldl_insert_lookup (by decide) CRC.df11ops _ rfl h11 (fun _ _ => rfl)

/-! ## CRC residue identities (claim C9) -/

namespace CRC

lemma pushBack_zero_false : pushBack 0 false = 0 := by decide

lemma computeAux_zero_bits {w : Bits128} : ∀ {i k : Nat}, k ≤ i →
    (∀ j, k ≤ j → j < i → w.get j = false) →
    computeAux w i 0 = computeAux w k 0 := by
  intro i
  induction i with
  | zero => intro k hk _; cases Nat.le_zero.mp hk; rfl
  | succ i ih =>
    intro k hk hz
    rcases Nat.eq_or_lt_of_le hk with rfl | hlt
    · rfl
    · show computeAux w i (pushBack 0 (w.get i)) = _
      rw [hz i (by omega) (Nat.lt_succ_self i), pushBack_zero_false]
      exact ih (by omega) (fun j hj1 hj2 => hz j hj1 (by omega))

lemma pushBack_small {acc : Nat} (b : Bool) (h : 2 * acc + 1 < 2^24) :
    pushBack acc b = 2 * acc + (if b then 1 else 0) := by
  have e24 : (2:Nat)^24 = 16777216 := by norm_num
  rw [pushBack_eq b (by omega), reduce25_eq, if_neg]
  intro hc
  have := Nat.testBit_implies_ge hc
  rcases b <;> simp at this <;> omega

/-- Pushing the low `i ≤ 24` bits of a 24-bit value through the CRC never
triggers a reduction: the accumulator just concatenates the bits. -/
lemma computeAux_low_value {v : Nat} :
    ∀ i, i ≤ 24 → ∀ acc, acc < 2^(24-i) →
      computeAux ⟨v, 0⟩ i acc = acc * 2^i + v % 2^i := by
  intro i
  induction i with
  | zero => intro _ acc _; show acc = acc * 2^0 + v % 2^0; simp [Nat.mod_one]
  | succ i ih =>
    intro hi acc hacc
    have hle : (2:Nat)^(24-(i+1)) ≤ 2^23 := Nat.pow_le_pow_right (by norm_num) (by omega)
    have e23 : (2:Nat)^23 = 8388608 := by norm_num
    have e24 : (2:Nat)^24 = 16777216 := by norm_num
    have hsplit : (2:Nat)^(24-i) = 2 * 2^(24-(i+1)) := by
      rw [← pow_succ']
      congr 1
      omega
    show computeAux ⟨v, 0⟩ i (pushBack acc (Bits128.get ⟨v, 0⟩ i)) = _
    rw [show Bits128.get ⟨v, 0⟩ i = v.testBit i from Bits128.get_low (by omega)]
    rw [pushBack_small _ (by omega)]
    rw [ih (by omega) _ (by rcases v.testBit i <;> simp <;> omega)]
    have ht := Nat.toNat_testBit v i
    have hmod : v % 2^(i+1) = (if v.testBit i then 1 else 0) * 2^i + v % 2^i := by
      rw [pow_succ, Nat.mod_mul]
      rcases hb : v.testBit i
      · have h0 : v / 2^i % 2 = 0 := by rw [hb] at ht; simpa using ht.symm
        rw [h0]; simp
      · have h1 : v / 2^i % 2 = 1 := by rw [hb] at ht; simpa using ht.symm
        rw [h1]; simp [Nat.add_comm]
    rw [hmod, pow_succ]
    rcases hb : v.testBit i <;> simp <;> try ring

/-- The Mode S CRC residue of a right-aligned value below `2^24` is the
value itself. -/
lemma compute56_low_residue {v : Nat} (hv : v < 2^24) :
    compute 56 ⟨v, 0⟩ = v := by
  unfold compute
  rw [computeAux_zero_bits (show 24 ≤ 56 by norm_num) (fun j hj1 _ => ?_)]
  · rw [computeAux_low_value 24 (le_refl 24) 0 (by norm_num), Nat.zero_mul,
      Nat.zero_add, Nat.mod_eq_of_lt hv]
  · rw [Bits128.get_low (show j < 64 by omega)]
    exact Nat.testBit_lt_two_pow
      (lt_of_lt_of_le hv (Nat.pow_le_pow_right (by norm_num) hj1))

end CRC

/-- C9: every frame emitted by the DF11 last-resort path has CRC residue
zero: for every 56-bit frame `f`, xoring the CRC accumulator
`compute<56>(f)` into `f` (as `sendFrameShortAligned(11, 0, frameShort ^
crc, e)` does) yields a frame whose `compute<56>` is zero, because the CRC
is xor-linear and the residue of a right-aligned value below `2^24` is the
value itself. -/
theorem df11_last_resort_crc_zero (f : Nat) (hf : f < 2^56) :
    CRC.compute 56 ⟨f ^^^ CRC.compute 56 ⟨f, 0⟩, 0⟩ = 0 := by
  have hrlt : CRC.compute 56 (Bits128.mk f 0) < 2^24 := CRC.compute_lt 56 _
  have hx : (Bits128.mk (f ^^^ CRC.compute 56 ⟨f, 0⟩) 0) =
      Bits128.xorb ⟨f, 0⟩ ⟨CRC.compute 56 ⟨f, 0⟩, 0⟩ := by
    simp [Bits128.xorb]
  rw [hx, CRC.compute_xor, CRC.compute56_low_residue hrlt, Nat.xor_self]

/-- Witness for C9 at a concrete DF11-shaped 56-bit frame. -/
theorem df11_last_resort_crc_zero_witness :
    (0x5D8ABCDE000000 : Nat) < 2^56 ∧
    CRC.compute 56 ⟨0x5D8ABCDE000000 ^^^ CRC.compute 56 ⟨0x5D8ABCDE000000, 0⟩, 0⟩ = 0 :=
  ⟨by norm_num, df11_last_resort_crc_zero 0x5D8ABCDE000000 (by norm_num)⟩

/-! ## Bits128 shift semantics (claim C7) -/

/-- Modelled from the spec: the strict wrap-around 128-bit left shift of a
value, `(x << k) mod 2^128`. -/
def shiftLeftSpec (x k : Nat) : Nat :=
  (x <<< k) % 2^128

namespace Bits128

lemma shiftLeft_inRange (w : Bits128) (k : Nat) : (w.shiftLeft k).InRange := by
  unfold shiftLeft
  split
  · exact ⟨Nat.mod_lt _ (by norm_num), Nat.mod_lt _ (by norm_num)⟩
  · exact ⟨by norm_num, Nat.mod_lt _ (by norm_num)⟩

lemma split_mod128 (a b : Nat) (hb : b < 2^64) :
    (2^64 * a + b) % 2^128 = 2^64 * (a % 2^64) + b := by
  have e64 : (2:Nat)^64 = 18446744073709551616 := by norm_num
  have e128 : (2:Nat)^128 = 340282366920938463463374607431768211456 := by norm_num
  omega

/-- `Bits128::shiftLeft(k)` computes the wrap-around 128-bit shift of the
denoted value, for every `k` in the UB-free range `[1,127]` (at `k = 0` and
`k = 128` the masked shift count makes the result diverge from the ideal
shift). -/
lemma toVal_shiftLeft {w : Bits128} (hw : w.InRange) {k : Nat} (hk1 : 1 ≤ k)
    (hk : k ≤ 127) :
    (w.shiftLeft k).toVal = (w.toVal * 2^k) % 2^128 := by
  obtain ⟨hl, hh⟩ := hw
  unfold shiftLeft toVal
  split
  case isTrue hk64 =>
    rw [show (64 - k) % 64 = 64 - k from Nat.mod_eq_of_lt (by omega)]
    have hF : (2:Nat)^k * 2^(64-k) = 2^64 := by
      rw [← pow_add]; congr 1; omega
    have hor : w.high <<< k ||| w.low >>> (64 - k) = w.high * 2^k + w.low / 2^(64-k) := by
      rw [Nat.shiftLeft_eq, Nat.shiftRight_eq_div_pow]
      have hlt : w.low / 2^(64-k) < 2^k := by
        rw [Nat.div_lt_iff_lt_mul (Nat.two_pow_pos _)]
        calc w.low < 2^64 := hl
          _ = 2^(64-k) * 2^k := by rw [← hF]; ring
          _ = 2^k * 2^(64-k) := by ring
      rw [show w.high * 2^k = 2^k * w.high by ring]
      exact (Nat.mul_add_lt_is_or hlt w.high).symm
    have hld : w.low * 2^k / 2^64 = w.low / 2^(64-k) := by
      rw [show (2:Nat)^64 = 2^(64-k) * 2^k from by rw [← pow_add]; congr 1; omega]
      exact Nat.mul_div_mul_right w.low (2^(64-k)) (Nat.two_pow_pos k)
    have hdm := Nat.div_add_mod (w.low * 2^k) (2^64)
    have key : (w.high * 2^64 + w.low) * 2^k % 2^128 =
        ((w.high * 2^k + w.low / 2^(64-k)) % 2^64) * 2^64 + (w.low * 2^k) % 2^64 := by
      have hM : (w.low * 2^k) % 2^64 < 2^64 := Nat.mod_lt _ (by norm_num)
      have expand : (w.high * 2^64 + w.low) * 2^k =
          2^64 * (w.high * 2^k + w.low * 2^k / 2^64) + (w.low * 2^k) % 2^64 := by
        calc (w.high * 2^64 + w.low) * 2^k
            = 2^64 * (w.high * 2^k) + w.low * 2^k := by ring
          _ = 2^64 * (w.high * 2^k) +
              (2^64 * (w.low * 2^k / 2^64) + (w.low * 2^k) % 2^64) := by rw [hdm]
          _ = 2^64 * (w.high * 2^k + w.low * 2^k / 2^64) + (w.low * 2^k) % 2^64 := by
              ring
      rw [expand, split_mod128 _ _ hM, hld]
      ring
    rw [hor, Nat.shiftLeft_eq, key]
  case isFalse hk64 =>
    have hk64' : 64 ≤ k := Nat.le_of_not_lt hk64
    rw [show (k - 64) % 64 = k - 64 from Nat.mod_eq_of_lt (by omega)]
    have hG : (2:Nat)^k = 2^(k-64) * 2^64 := by
      rw [← pow_add]; congr 1; omega
    have key : (w.high * 2^64 + w.low) * 2^k % 2^128 =
        ((w.low * 2^(k-64)) % 2^64) * 2^64 := by
      calc (w.high * 2^64 + w.low) * 2^k % 2^128
          = ((w.low * 2^(k-64)) * 2^64 + 2^128 * (w.high * 2^(k-64))) % 2^128 := by
            congr 1
            rw [hG, show (2:Nat)^128 = 2^64 * 2^64 by norm_num]
            ring
        _ = ((w.low * 2^(k-64)) * 2^64) % 2^128 := Nat.add_mul_mod_self_left _ _ _
        _ = ((w.low * 2^(k-64)) % 2^64) * 2^64 := by
            rw [show (2:Nat)^128 = 2^64 * 2^64 by norm_num]
            exact Nat.mul_mod_mul_right (2^64) (w.low * 2^(k-64)) (2^64)
    rw [Nat.shiftLeft_eq, key, Nat.add_zero]

lemma toVal_inj {u v : Bits128} (hu : u.InRange) (hv : v.InRange)
    (h : u.toVal = v.toVal) : u = v := by
  obtain ⟨hul, huh⟩ := hu
  obtain ⟨hvl, hvh⟩ := hv
  have e64 : (2:Nat)^64 = 18446744073709551616 := by norm_num
  unfold toVal at h
  cases u
  cases v
  simp only [mk.injEq]
  simp only at h hul huh hvl hvh
  constructor <;> omega

end Bits128

/-- **C7 counterexample.**  `shiftLeft(k)` does not realize the strict
wrap-around 128-bit shift for every `k ∈ [0,128]`: at `k = 0` the source
shifts a `uint64_t` by 64 (`low >> (64 - 0)`), which the hardware masks to
a shift by 0, so `shiftLeft(0)` on the register with `low = 1, high = 0`
yields `high = low = 1` (denoted value `2^64 + 1`) instead of the identity
(denoted value `1`). -/
theorem bits128_shiftLeft_counterexample :
    ¬ (∀ (w : Bits128) (k : Nat), w.InRange → k ≤ 128 →
        (w.shiftLeft k).toVal = shiftLeftSpec w.toVal k) := by
  intro h
  exact absurd (h ⟨1, 0⟩ 0 (by decide) (by decide)) (by decide)

/-- **C7 (amended).**  For every in-range `Bits128` value and every shift
count `k` in the UB-free range `[1,127]`, `shiftLeft(k)` realizes the
strict wrap-around 128-bit left shift of the denoted value; consequently
`shiftLeft(a)` then `shiftLeft(b)` equals `shiftLeft(a+b)` whenever
`a, b ≥ 1` and `a + b ≤ 127`.  At the boundary counts 0 and 128 the source
shifts a `uint64_t` by its own width (undefined behavior, de-facto a
masked shift), and the equivalence fails there. -/
theorem bits128_shiftLeft_spec (w : Bits128) (hw : w.InRange) :
    (∀ k, 1 ≤ k → k ≤ 127 → (w.shiftLeft k).toVal = shiftLeftSpec w.toVal k) ∧
    (∀ a b, 1 ≤ a → 1 ≤ b → a + b ≤ 127 →
      (w.shiftLeft a).shiftLeft b = w.shiftLeft (a + b)) := by
  have hval : ∀ k, 1 ≤ k → k ≤ 127 →
      (w.shiftLeft k).toVal = (w.toVal * 2^k) % 2^128 :=
    fun k hk1 hk => Bits128.toVal_shiftLeft hw hk1 hk
  refine ⟨fun k hk1 hk => ?_, fun a b ha1 hb1 hab => ?_⟩
  · rw [hval k hk1 hk]
    unfold shiftLeftSpec
    rw [Nat.shiftLeft_eq]
  · apply Bits128.toVal_inj (Bits128.shiftLeft_inRange _ b) (Bits128.shiftLeft_inRange _ (a+b))
    rw [Bits128.toVal_shiftLeft (Bits128.shiftLeft_inRange w a) hb1 (show b ≤ 127 by omega),
      hval a ha1 (by omega), hval (a+b) (by omega) hab, Nat.mod_mul_mod]
    congr 1
    rw [pow_add]
    ring

/-- Witness for the amended C7 at a concrete register value and shift
amounts, exercising both the value clause (k = 100) and the composition
clause (a = 60, b = 60). -/
theorem bits128_shiftLeft_spec_witness :
    ((Bits128.mk 0x123456789ABCDEF 0xFEDCBA987654321).InRange ∧
      (1:Nat) ≤ 100 ∧ (100:Nat) ≤ 127 ∧ (60:Nat) + 60 ≤ 127) ∧
    ((Bits128.mk 0x123456789ABCDEF 0xFEDCBA987654321).shiftLeft 100).toVal =
      shiftLeftSpec (Bits128.mk 0x123456789ABCDEF 0xFEDCBA987654321).toVal 100 ∧
    ((Bits128.mk 0x123456789ABCDEF 0xFEDCBA987654321).shiftLeft 60).shiftLeft 60 =
      (Bits128.mk 0x123456789ABCDEF 0xFEDCBA987654321).shiftLeft (60 + 60) := by
  refine ⟨⟨by decide, by decide, by decide, by decide⟩, ?_, ?_⟩
  · exact (bits128_shiftLeft_spec _ (by decide)).1 100 (by decide) (by decide)
  · exact (bits128_shiftLeft_spec _ (by decide)).2 60 60 (by decide) (by decide)
      (by decide)

/-! ## ICAO trust cache (`src/include/ICAOCache.hpp`) -/

namespace ICAOTable

/-- `ICAOTable::TTL_not_trusted`. -/
def TTL_not_trusted : Nat := 10

/-- `ICAOTable::TTL_trusted`. -/
def TTL_trusted : Nat := 30

/-- `ICAOTable::ALT_delta_25ft`. -/
def ALT_delta_25ft : Nat := 80

/-- `ICAOTable::NumBits`. -/
def NumBits : Nat := 16

/-- `ICAOTable::Size = 1 << NumBits`. -/
def Size : Nat := 0x1 <<< NumBits

/-- `ICAOTable::HashMask = (1 << NumBits) - 1`. -/
def HashMask : Nat := (0x1 <<< NumBits) - 1

/-- `ICAOTable::Entry`: trust flag (5-bit field), 27-bit ICAO+CA key, and the
two TTL counters (`uint16_t`). -/
structure Entry where
  trusted : Nat
  icao : Nat
  ttl : Nat
  ttl_trusted : Nat
deriving DecidableEq, Repr

/-- `ICAOTable::SquawkAlt`: hysteresis counters and 13-bit squawk/altitude
reference values. -/
structure SquawkAlt where
  squawk_cnt : Nat
  squawk : Nat
  altitude_cnt : Nat
  altitude : Nat
deriving DecidableEq, Repr

/-- `ICAOTable::Iterator`: a bucket index; valid iff it is below `Size`. -/
structure Iterator where
  key : Nat
deriving DecidableEq, Repr

/-- The default `Iterator()` constructor: the invalid index `Size`. -/
def Iterator.invalid : Iterator := ⟨Size⟩

/-- `Iterator::isValid`. -/
def Iterator.isValid (it : Iterator) : Bool := it.key < Size

/-- The whole table: the 1 MHz sweep counter and the two bucket arrays. -/
structure State where
  time1Mhz : Nat
  table : Nat → Entry
  squawkAlt : Nat → SquawkAlt

/-- The `ICAOTable` constructor: counter zero, both arrays zero-filled. -/
def State.init : State :=
  { time1Mhz := 0, table := fun _ => ⟨0, 0, 0, 0⟩, squawkAlt := fun _ => ⟨0, 0, 0, 0⟩ }

/-- `ICAOTable::insertWithCA`: write the 27-bit key into bucket
`icaoWithCA & HashMask`, clear the trust flag, return the bucket iterator.
The `ttl`/`ttl_trusted` fields of the prior occupant are left as they were
(the source only assigns `icao` and `trusted`). -/
def insertWithCA (icaoWithCA : Nat) (s : State) : Iterator × State :=
  (⟨icaoWithCA &&& HashMask⟩,
   { s with table := (Function.update s.table (icaoWithCA &&& HashMask)
      { s.table (icaoWithCA &&& HashMask) with
          icao := icaoWithCA % 2^27, trusted := 0 }) })

/-- `ICAOTable::findWithCA`: exact 27-bit key match at the hashed bucket. -/
def findWithCA (icaoWithCA : Nat) (s : State) : Iterator :=
  if (s.table (icaoWithCA &&& HashMask)).icao = icaoWithCA
  then ⟨icaoWithCA &&& HashMask⟩ else Iterator.invalid

/-- `ICAOTable::find`: match the stored key masked to its low 24 bits. -/
def find (icao : Nat) (s : State) : Iterator :=
  if (s.table (icao &&& HashMask)).icao &&& 0xffffff = icao
  then ⟨icao &&& HashMask⟩ else Iterator.invalid

/-- `ICAOTable::markAsTrustedSeen`. -/
def markAsTrustedSeen (it : Iterator) (s : State) : State :=
  { s with table := (Function.update s.table it.key
      { s.table it.key with ttl_trusted := TTL_trusted, ttl := TTL_not_trusted }) }

/-- `ICAOTable::markAsSeen`. -/
def markAsSeen (it : Iterator) (s : State) : State :=
  { s with table := (Function.update s.table it.key
      { s.table it.key with ttl := TTL_not_trusted }) }

/-- `ICAOTable::isAlive`. -/
def isAlive (it : Iterator) (s : State) : Bool :=
  (s.table it.key).ttl > 0

/-- `ICAOTable::isTrusted`. -/
def isTrusted (it : Iterator) (s : State) : Bool :=
  isAlive it s && ((s.table it.key).ttl_trusted > 0)

/-- `ICAOTable::doResetEntry`: clear trust flag, trusted TTL and key, and
wipe the squawk/altitude record.  (`ttl` is not assigned here.) -/
def doResetEntry (index : Nat) (s : State) : State :=
  { s with
    table := (Function.update s.table index
      { s.table index with trusted := 0, ttl_trusted := 0, icao := 0 }),
    squawkAlt := Function.update s.squawkAlt index ⟨0, 0, 0, 0⟩ }

/-- The first half of the `doTickForEntry` loop body: decrement
`ttl_trusted` if positive, else clear the trust flag.  It never touches
`ttl` or `icao`. -/
def doTickTrustStep (e : Entry) : Entry :=
  if e.ttl_trusted > 0 then { e with ttl_trusted := e.ttl_trusted - 1 }
  else { e with trusted := 0 }

/-- `ICAOTable::doTickForEntry`: skip empty buckets; decrement
`ttl_trusted` (or clear the trust flag), then decrement `ttl` or reset the
whole entry when it already reached zero.  (The in-place field mutations of
the source are split into `doTickTrustStep` plus the `ttl` update; the
`ttl` test reads the value that `doTickTrustStep` left unchanged.) -/
def doTickForEntry (index : Nat) (s : State) : State :=
  if (s.table index).icao = 0 then s
  else
    if (s.table index).ttl > 0 then
      { s with table := (Function.update s.table index
          { doTickTrustStep (s.table index) with ttl := (s.table index).ttl - 1 }) }
    else
      doResetEntry index
        { s with table := Function.update s.table index (doTickTrustStep (s.table index)) }

/-- `ICAOTable::tick`: advance the 1 MHz counter modulo `10^6` and, while the
counter is below `Size`, decay the bucket it points at. -/
def tick (s : State) : State :=
  if (s.time1Mhz + 1) % 1000000 ≥ Size then
    { s with time1Mhz := (s.time1Mhz + 1) % 1000000 }
  else
    doTickForEntry ((s.time1Mhz + 1) % 1000000)
      { s with time1Mhz := (s.time1Mhz + 1) % 1000000 }

/-- `ICAOTable::checkSquawk`: accept iff the new value equals the stored
one; otherwise overwrite the stored value when the hysteresis counter is
clear, or clear the counter. -/
def checkSquawk (it : Iterator) (newSquawk : Nat) (s : State) : Bool × State :=
  if (s.squawkAlt it.key).squawk = newSquawk then
    (true, { s with squawkAlt := (Function.update s.squawkAlt it.key
        { s.squawkAlt it.key with squawk_cnt := 1 }) })
  else if (s.squawkAlt it.key).squawk_cnt = 0 then
    (false, { s with squawkAlt := (Function.update s.squawkAlt it.key
        { s.squawkAlt it.key with squawk := newSquawk % 2^13 }) })
  else
    (false, { s with squawkAlt := (Function.update s.squawkAlt it.key
        { s.squawkAlt it.key with squawk_cnt := 0 }) })

/-- `ICAOTable::checkAltitude`: a zero stored reference is (re)primed with
the new value and rejected; otherwise accept iff the new value is within
`ALT_delta_25ft` of the reference, with a two-strikes hysteresis that clears
the reference. -/
def checkAltitude (it : Iterator) (newAlt : Nat) (s : State) : Bool × State :=
  if (s.squawkAlt it.key).altitude = 0 then
    (false, { s with squawkAlt := (Function.update s.squawkAlt it.key
        { s.squawkAlt it.key with altitude := newAlt % 2^13, altitude_cnt := 0 }) })
  else
    if (((s.squawkAlt it.key).altitude : Int) - (newAlt : Int)).natAbs < ALT_delta_25ft then
      (true, { s with squawkAlt := (Function.update s.squawkAlt it.key
          { s.squawkAlt it.key with altitude := newAlt % 2^13, altitude_cnt := 1 }) })
    else if (s.squawkAlt it.key).altitude_cnt = 1 then
      (false, { s with squawkAlt := (Function.update s.squawkAlt it.key
          { s.squawkAlt it.key with altitude_cnt := 0 }) })
    else if (s.squawkAlt it.key).altitude_cnt = 0 then
      (false, { s with squawkAlt := (Function.update s.squawkAlt it.key
          { s.squawkAlt it.key with altitude := 0 }) })
    else (false, s)

/-- The public operations of the table, for reachability statements. -/
inductive Op where
  | insertWithCA (icaoWithCA : Nat)
  | markAsSeen (key : Nat)
  | markAsTrustedSeen (key : Nat)
  | checkSquawk (key newSquawk : Nat)
  | checkAltitude (key newAlt : Nat)
  | tick
deriving DecidableEq, Repr

/-- Apply one public operation to the table state. -/
def applyOp (op : Op) (s : State) : State :=
  match op with
  | .insertWithCA k => (insertWithCA k s).2
  | .markAsSeen key => markAsSeen ⟨key⟩ s
  | .markAsTrustedSeen key => markAsTrustedSeen ⟨key⟩ s
  | .checkSquawk key v => (checkSquawk ⟨key⟩ v s).2
  | .checkAltitude key v => (checkAltitude ⟨key⟩ v s).2
  | .tick => tick s

/-- Run a sequence of public operations. -/
def run (ops : List Op) (s : State) : State :=
  ops.foldl (fun t op => applyOp op t) s

end ICAOTable

namespace ICAOTable

lemma State.ext' {s t : State} (h1 : s.time1Mhz = t.time1Mhz)
    (h2 : ∀ b, s.table b = t.table b) (h3 : ∀ b, s.squawkAlt b = t.squawkAlt b) :
    s = t := by
  cases s
  cases t
  simp only at h1 h2 h3
  simp only [mk.injEq]
  exact ⟨h1, funext h2, funext h3⟩

lemma run_nil (s : State) : run [] s = s := rfl

lemma run_cons (op : Op) (l : List Op) (s : State) :
    run (op :: l) s = run l (applyOp op s) := rfl

lemma run_append (l₁ l₂ : List Op) (s : State) :
    run (l₁ ++ l₂) s = run l₂ (run l₁ s) := by
  unfold run
  exact List.foldl_append _ _ _ _

lemma hashMask_eq : HashMask = 2^16 - 1 := by decide

lemma size_eq : Size = 65536 := by decide

lemma checkSquawk_table (it : Iterator) (v : Nat) (s : State) :
    (checkSquawk it v s).2.table = s.table := by
  unfold checkSquawk
  split
  · rfl
  · split <;> rfl

lemma checkAltitude_table (it : Iterator) (v : Nat) (s : State) :
    (checkAltitude it v s).2.table = s.table := by
  unfold checkAltitude
  split
  · rfl
  · split
    · rfl
    · split
      · rfl
      · split <;> rfl

lemma doTickTrustStep_icao (e : Entry) : (doTickTrustStep e).icao = e.icao := by
  unfold doTickTrustStep
  split <;> rfl

lemma doTickTrustStep_ttl (e : Entry) : (doTickTrustStep e).ttl = e.ttl := by
  unfold doTickTrustStep
  split <;> rfl

lemma doTickForEntry_other {i b : Nat} (s : State) (h : b ≠ i) :
    (doTickForEntry i s).table b = s.table b := by
  unfold doTickForEntry doResetEntry
  split
  · rfl
  · split
    · exact Function.update_noteq h _ _
    · show Function.update (Function.update s.table i _) i _ b = _
      rw [Function.update_noteq h, Function.update_noteq h]

lemma doTickForEntry_squawkAlt_other {i b : Nat} (s : State) (h : b ≠ i) :
    (doTickForEntry i s).squawkAlt b = s.squawkAlt b := by
  unfold doTickForEntry doResetEntry
  split
  · rfl
  · split
    · rfl
    · exact Function.update_noteq h _ _

lemma doTickForEntry_time (i : Nat) (s : State) :
    (doTickForEntry i s).time1Mhz = s.time1Mhz := by
  unfold doTickForEntry doResetEntry
  split
  · rfl
  · split <;> rfl

lemma doTickForEntry_empty {i : Nat} {s : State} (h : (s.table i).icao = 0) :
    doTickForEntry i s = s := by
  unfold doTickForEntry
  rw [if_pos h]

end ICAOTable

/-- C6 counterexample: `insertWithCA` does not zero the TTL fields.  In the
state reached by inserting key `0x10001` and marking its bucket as seen,
inserting the colliding key `0x20001` leaves `ttl = 10` in the bucket, not
`0` as the claim states. -/
theorem insertWithCA_counterexample :
    (((ICAOTable.insertWithCA 0x20001
        (ICAOTable.run [ICAOTable.Op.insertWithCA 0x10001, ICAOTable.Op.markAsSeen 1]
          ICAOTable.State.init)).2.table 1).ttl = 10) ∧ ¬ (10 = 0) := by
  constructor
  · decide
  · decide

/-- C6 amended: after `insertWithCA(k)` the bucket `k & 0xFFFF` stores the
27-bit truncation of `k` with the trust flag cleared, the returned iterator
is that bucket, and the entry is not marked as seen — but the `ttl` and
`ttl_trusted` fields keep whatever values the bucket previously held; every
other bucket, the squawk/altitude array and the sweep counter are
untouched. -/
theorem insertWithCA_spec (s : ICAOTable.State) (k : Nat) :
    ((ICAOTable.insertWithCA k s).1 = ⟨k &&& ICAOTable.HashMask⟩) ∧
    (((ICAOTable.insertWithCA k s).2.table (k &&& ICAOTable.HashMask)).icao = k % 2^27) ∧
    (((ICAOTable.insertWithCA k s).2.table (k &&& ICAOTable.HashMask)).trusted = 0) ∧
    (((ICAOTable.insertWithCA k s).2.table (k &&& ICAOTable.HashMask)).ttl =
      (s.table (k &&& ICAOTable.HashMask)).ttl) ∧
    (((ICAOTable.insertWithCA k s).2.table (k &&& ICAOTable.HashMask)).ttl_trusted =
      (s.table (k &&& ICAOTable.HashMask)).ttl_trusted) ∧
    (∀ b, b ≠ k &&& ICAOTable.HashMask →
      (ICAOTable.insertWithCA k s).2.table b = s.table b) ∧
    ((ICAOTable.insertWithCA k s).2.squawkAlt = s.squawkAlt) ∧
    ((ICAOTable.insertWithCA k s).2.time1Mhz = s.time1Mhz) := by
  unfold ICAOTable.insertWithCA
  exact ⟨rfl, by simp, by simp, by simp, by simp,
    fun b hb => by simp [Function.update_noteq hb], rfl, rfl⟩

/-- Witness for C6 (amended) at a concrete state and key. -/
theorem insertWithCA_spec_witness :
    (((ICAOTable.insertWithCA 0x5ABCDE1 ICAOTable.State.init).2.table 0xCDE1).icao =
      0x5ABCDE1 % 2^27) ∧
    ((ICAOTable.insertWithCA 0x5ABCDE1 ICAOTable.State.init).2.table 7 =
      ICAOTable.State.init.table 7) := by
  have h := insertWithCA_spec ICAOTable.State.init 0x5ABCDE1
  exact ⟨h.2.1, h.2.2.2.2.2.1 7 (by decide)⟩

/-! ## Bucket invariant (claim C8) -/

namespace ICAOTable

/-- C8's invariant: every bucket below `Size` is empty (key 0) or holds a
key whose low 16 bits equal the bucket index. -/
def BucketInv (s : State) : Prop :=
  ∀ b, b < Size → (s.table b).icao = 0 ∨ (s.table b).icao &&& HashMask = b

lemma and_hashMask_eq_mod (x : Nat) : x &&& HashMask = x % 2^16 := by
  rw [hashMask_eq]
  exact Nat.and_pow_two_sub_one_eq_mod x 16

lemma bucketInv_init : BucketInv State.init := fun _ _ => Or.inl rfl

lemma doTickForEntry_icao (i : Nat) (s : State) :
    ((doTickForEntry i s).table i).icao = (s.table i).icao ∨
    ((doTickForEntry i s).table i).icao = 0 := by
  unfold doTickForEntry doResetEntry
  split
  · left; rfl
  · split
    · left
      show (Function.update s.table i _ i).icao = _
      rw [Function.update_same]
      exact doTickTrustStep_icao _
    · right
      show (Function.update (Function.update s.table i _) i _ i).icao = 0
      rw [Function.update_same]

lemma bucketInv_applyOp {s : State} (h : BucketInv s) (op : Op) :
    BucketInv (applyOp op s) := by
  cases op with
  | insertWithCA k =>
    intro b hb
    simp only [applyOp, insertWithCA, Function.update_apply]
    split
    case isTrue hbk =>
      right
      show (k % 2^27) &&& HashMask = b
      rw [and_hashMask_eq_mod, Nat.mod_mod_of_dvd k (by norm_num), hbk,
        and_hashMask_eq_mod]
    case isFalse hbk => exact h b hb
  | markAsSeen key =>
    intro b hb
    simp only [applyOp, markAsSeen, Function.update_apply]
    split
    case isTrue hbk => subst hbk; exact h b hb
    case isFalse hbk => exact h b hb
  | markAsTrustedSeen key =>
    intro b hb
    simp only [applyOp, markAsTrustedSeen, Function.update_apply]
    split
    case isTrue hbk => subst hbk; exact h b hb
    case isFalse hbk => exact h b hb
  | checkSquawk key v =>
    intro b hb
    rw [show (applyOp (Op.checkSquawk key v) s).table = s.table from
      checkSquawk_table ⟨key⟩ v s]
    exact h b hb
  | checkAltitude key v =>
    intro b hb
    rw [show (applyOp (Op.checkAltitude key v) s).table = s.table from
      checkAltitude_table ⟨key⟩ v s]
    exact h b hb
  | tick =>
    intro b hb
    simp only [applyOp, tick]
    split
    · exact h b hb
    · by_cases hbt : b = (s.time1Mhz + 1) % 1000000
      · rw [← hbt]
        rcases doTickForEntry_icao b { s with time1Mhz := b } with hsame | hzero
        · rw [hsame]
          exact h b hb
        · exact Or.inl hzero
      · rw [doTickForEntry_other _ hbt]
        exact h b hb

lemma bucketInv_run (ops : List Op) :
    ∀ s, BucketInv s → BucketInv (run ops s) := by
  induction ops with
  | nil => exact fun s hs => hs
  | cons op rest ih =>
    intro s hs
    rw [run_cons]
    exact ih _ (bucketInv_applyOp hs op)

lemma findWithCA_valid {k : Nat} {s : State}
    (h : (findWithCA k s).isValid = true) :
    (findWithCA k s).key = k &&& HashMask ∧ (s.table (k &&& HashMask)).icao = k := by
  unfold findWithCA at h ⊢
  split at h
  case isTrue hk => rw [if_pos hk]; exact ⟨rfl, hk⟩
  case isFalse hk => simp [Iterator.invalid, Iterator.isValid] at h

lemma find_valid {k : Nat} {s : State}
    (h : (find k s).isValid = true) :
    (find k s).key = k &&& HashMask ∧ (s.table (k &&& HashMask)).icao &&& 0xffffff = k := by
  unfold find at h ⊢
  split at h
  case isTrue hk => rw [if_pos hk]; exact ⟨rfl, hk⟩
  case isFalse hk => simp [Iterator.invalid, Iterator.isValid] at h

end ICAOTable

/-- C8: in every `ICAOTable` state reachable from the fresh table by any
sequence of operations, each bucket `b` is empty (stored key 0) or stores a
key whose low 16 bits equal `b`; and `find`/`findWithCA` return a valid
iterator only when the single bucket selected by the argument's low 16 bits
holds a matching key — the iterator is exactly that bucket, so no lookup
ever aliases an entry stored under a different bucket. -/
theorem icao_bucket_invariant (ops : List ICAOTable.Op) :
    (∀ b, b < ICAOTable.Size →
      ((ICAOTable.run ops ICAOTable.State.init).table b).icao = 0 ∨
      ((ICAOTable.run ops ICAOTable.State.init).table b).icao &&& ICAOTable.HashMask = b) ∧
    (∀ k, (ICAOTable.findWithCA k (ICAOTable.run ops ICAOTable.State.init)).isValid = true →
      (ICAOTable.findWithCA k (ICAOTable.run ops ICAOTable.State.init)).key =
        k &&& ICAOTable.HashMask ∧
      ((ICAOTable.run ops ICAOTable.State.init).table (k &&& ICAOTable.HashMask)).icao = k) ∧
    (∀ k, (ICAOTable.find k (ICAOTable.run ops ICAOTable.State.init)).isValid = true →
      (ICAOTable.find k (ICAOTable.run ops ICAOTable.State.init)).key =
        k &&& ICAOTable.HashMask ∧
      ((ICAOTable.run ops ICAOTable.State.init).table
        (k &&& ICAOTable.HashMask)).icao &&& 0xffffff = k) :=
  ⟨ICAOTable.bucketInv_run ops ICAOTable.State.init ICAOTable.bucketInv_init,
   fun _ h => ICAOTable.findWithCA_valid h,
   fun _ h => ICAOTable.find_valid h⟩

/-- Witness for C8 at a concrete operation sequence and key. -/
theorem icao_bucket_invariant_witness :
    ((ICAOTable.findWithCA 0x500ABC1
        (ICAOTable.run [ICAOTable.Op.insertWithCA 0x500ABC1]
          ICAOTable.State.init)).isValid = true) ∧
    ((ICAOTable.findWithCA 0x500ABC1
        (ICAOTable.run [ICAOTable.Op.insertWithCA 0x500ABC1]
          ICAOTable.State.init)).key = 0x500ABC1 &&& ICAOTable.HashMask) := by
  refine ⟨by decide, ?_⟩
  exact ((icao_bucket_invariant [ICAOTable.Op.insertWithCA 0x500ABC1]).2.1
    0x500ABC1 (by decide)).1

/-! ## TTL / trust dynamics (claim C5) -/

namespace ICAOTable

/-- One tick on a state whose next sweep bucket is empty (or out of sweep
range) only advances the counter. -/
lemma tick_empty_step {s : State}
    (hempty : ∀ b, b ≠ 1 → b < Size → (s.table b).icao = 0)
    (hne1 : (s.time1Mhz + 1) % 1000000 ≠ 1) :
    tick s = { s with time1Mhz := (s.time1Mhz + 1) % 1000000 } := by
  unfold tick
  split
  · rfl
  case isFalse hlt =>
    exact doTickForEntry_empty (hempty _ hne1 (by omega))

/-- Ticks that never pass bucket 1 leave the arrays untouched and only
advance the counter. -/
lemma run_replicate_tick :
    ∀ (n : Nat) (s : State),
      (∀ b, b ≠ 1 → b < Size → (s.table b).icao = 0) →
      1 ≤ s.time1Mhz → s.time1Mhz ≤ 999999 → s.time1Mhz + n ≤ 1000000 →
      run (List.replicate n Op.tick) s =
        { s with time1Mhz := (s.time1Mhz + n) % 1000000 } := by
  intro n
  induction n with
  | zero =>
    intro s hempty h1 h9 hn
    refine State.ext' ?_ (fun b => rfl) (fun b => rfl)
    show s.time1Mhz = (s.time1Mhz + 0) % 1000000
    omega
  | succ n ih =>
    intro s hempty h1 h9 hn
    rw [List.replicate_succ, run_cons]
    have hne1 : (s.time1Mhz + 1) % 1000000 ≠ 1 := by omega
    rw [show applyOp Op.tick s = tick s from rfl, tick_empty_step hempty hne1]
    rcases Nat.lt_or_ge (s.time1Mhz + 1) 1000000 with hlt | hge
    · have hm : (s.time1Mhz + 1) % 1000000 = s.time1Mhz + 1 := Nat.mod_eq_of_lt hlt
      rw [hm, ih { s with time1Mhz := s.time1Mhz + 1 } hempty
        (show 1 ≤ s.time1Mhz + 1 by omega)
        (show s.time1Mhz + 1 ≤ 999999 by omega)
        (show s.time1Mhz + 1 + n ≤ 1000000 by omega)]
      refine State.ext' ?_ (fun b => rfl) (fun b => rfl)
      show (s.time1Mhz + 1 + n) % 1000000 = (s.time1Mhz + (n + 1)) % 1000000
      omega
    · have hn0 : n = 0 := by omega
      subst hn0
      rfl

/-- The bucket-1 entry after `j` effective sweep passes of the C5 trace. -/
def c5entry (j : Nat) : Entry := ⟨0, 1, 10 - j, 30 - j⟩

/-- The whole state after `j` simulated seconds of the C5 trace. -/
def c5state (j : Nat) : State :=
  { time1Mhz := 0,
    table := Function.update (fun _ => ⟨0, 0, 0, 0⟩) 1 (c5entry j),
    squawkAlt := fun _ => ⟨0, 0, 0, 0⟩ }

/-- The C5 trace: insert key 1, mark it trusted-seen, then let ten full
sweep seconds (10^7 ticks) pass with no further traffic. -/
def c5ops : List Op :=
  [Op.insertWithCA 1, Op.markAsTrustedSeen 1] ++ List.replicate 10000000 Op.tick

lemma c5state_empty (j : Nat) : ∀ b, b ≠ 1 → b < Size → ((c5state j).table b).icao = 0 := by
  intro b hb _
  show (Function.update (fun _ => (⟨0, 0, 0, 0⟩ : Entry)) 1 (c5entry j) b).icao = 0
  rw [Function.update_noteq hb]

lemma c5_prefix :
    run [Op.insertWithCA 1, Op.markAsTrustedSeen 1] State.init = c5state 0 := by
  refine State.ext' rfl ?_ (fun b => rfl)
  intro b
  by_cases hb : b = 1
  · subst hb
    decide
  · have h1 : (1 : Nat) &&& HashMask = 1 := by decide
    show (Function.update (Function.update State.init.table (1 &&& HashMask)
        { State.init.table (1 &&& HashMask) with icao := 1 % 2^27, trusted := 0 })
        ((⟨1⟩ : Iterator).key) _) b =
      (Function.update (fun _ => (⟨0, 0, 0, 0⟩ : Entry)) 1 (c5entry 0)) b
    rw [show ((⟨1⟩ : Iterator).key) = 1 from rfl, h1, Function.update_noteq hb,
      Function.update_noteq hb, Function.update_noteq hb]
    rfl

lemma c5_tickstep (j : Nat) (hj : j < 10) :
    applyOp Op.tick (c5state j) = { c5state (j + 1) with time1Mhz := 1 } := by
  show tick (c5state j) = _
  unfold tick
  rw [show ((c5state j).time1Mhz + 1) % 1000000 = 1 from rfl, if_neg (by decide)]
  unfold doTickForEntry
  have he : ({ c5state j with time1Mhz := 1 }).table 1 = c5entry j := by
    show Function.update (fun _ => (⟨0, 0, 0, 0⟩ : Entry)) 1 (c5entry j) 1 = c5entry j
    exact Function.update_same 1 _ _
  rw [he, if_neg (by simp [c5entry]), if_pos (by simp [c5entry]; omega)]
  unfold doTickTrustStep
  rw [if_pos (by simp [c5entry]; omega)]
  refine State.ext' rfl ?_ (fun b => rfl)
  intro b
  by_cases hb : b = 1
  · subst hb
    show Function.update ({ c5state j with time1Mhz := 1 }).table 1
        { { c5entry j with ttl_trusted := (c5entry j).ttl_trusted - 1 } with
          ttl := (c5entry j).ttl - 1 } 1 =
      Function.update (fun _ => (⟨0, 0, 0, 0⟩ : Entry)) 1 (c5entry (j + 1)) 1
    rw [Function.update_same, Function.update_same]
    simp only [c5entry]
    constructor <;> omega
  · show Function.update ({ c5state j with time1Mhz := 1 }).table 1 _ b =
      Function.update (fun _ => (⟨0, 0, 0, 0⟩ : Entry)) 1 (c5entry (j + 1)) b
    rw [Function.update_noteq hb, Function.update_noteq hb]
    show Function.update (fun _ => (⟨0, 0, 0, 0⟩ : Entry)) 1 (c5entry j) b = _
    rw [Function.update_noteq hb]

lemma c5_second (j : Nat) (hj : j < 10) :
    run (List.replicate 1000000 Op.tick) (c5state j) = c5state (j + 1) := by
  rw [show (1000000 : Nat) = 999999 + 1 from rfl, List.replicate_succ, run_cons,
    c5_tickstep j hj,
    run_replicate_tick 999999 { c5state (j + 1) with time1Mhz := 1 }
      (fun b hb hlt => c5state_empty (j + 1) b hb hlt)
      (show (1:Nat) ≤ 1 from le_refl 1)
      (show (1:Nat) ≤ 999999 by norm_num)
      (show 1 + 999999 ≤ 1000000 by norm_num)]
  refine State.ext' ?_ (fun b => rfl) (fun b => rfl)
  show (1 + 999999) % 1000000 = 0
  norm_num

lemma c5_seconds : ∀ m, m ≤ 10 →
    run (List.replicate (1000000 * m) Op.tick) (c5state 0) = c5state m := by
  intro m
  induction m with
  | zero => intro _; rw [Nat.mul_zero]; rfl
  | succ m ih =>
    intro hm
    rw [show 1000000 * (m + 1) = 1000000 * m + 1000000 from by ring,
      List.replicate_add, run_append, ih (by omega), c5_second m (by omega)]

lemma c5_final : run c5ops State.init = c5state 10 := by
  unfold c5ops
  rw [run_append, c5_prefix,
    show (10000000 : Nat) = 1000000 * 10 from by norm_num]
  exact c5_seconds 10 (le_refl 10)

/-- The corrected C5 bound. -/
def TrustBound (s : State) : Prop :=
  ∀ b, (s.table b).ttl_trusted ≤ 30 ∧ (s.table b).ttl_trusted ≤ (s.table b).ttl + 20

lemma trustBound_init : TrustBound State.init := by
  intro b
  constructor
  · show (0:Nat) ≤ 30
    norm_num
  · show (0:Nat) ≤ 0 + 20
    norm_num

lemma doTickForEntry_bound {i : Nat} {s : State}
    (hb : (s.table i).ttl_trusted ≤ 30 ∧ (s.table i).ttl_trusted ≤ (s.table i).ttl + 20) :
    ((doTickForEntry i s).table i).ttl_trusted ≤ 30 ∧
    ((doTickForEntry i s).table i).ttl_trusted ≤ ((doTickForEntry i s).table i).ttl + 20 := by
  unfold doTickForEntry doResetEntry doTickTrustStep
  split
  · exact hb
  · split
    case isTrue httl =>
      show ((Function.update s.table i _ : Nat → Entry) i).ttl_trusted ≤ 30 ∧ _
      rw [Function.update_same]
      split
      case isTrue htt => simp; omega
      case isFalse htt => simp; omega
    case isFalse httl =>
      show ((Function.update (Function.update s.table i _) i _ : Nat → Entry) i).ttl_trusted ≤ 30 ∧ _
      rw [Function.update_same]
      simp

lemma trustBound_applyOp {s : State} (h : TrustBound s) (op : Op) :
    TrustBound (applyOp op s) := by
  cases op with
  | insertWithCA k =>
    intro b
    simp only [applyOp, insertWithCA, Function.update_apply]
    split
    case isTrue hbk => exact h (k &&& HashMask)
    case isFalse hbk => exact h b
  | markAsSeen key =>
    intro b
    simp only [applyOp, markAsSeen, Function.update_apply]
    split
    case isTrue hbk =>
      have h1 := (h key).1
      constructor
      · exact h1
      · show (s.table key).ttl_trusted ≤ TTL_not_trusted + 20
        unfold TTL_not_trusted
        omega
    case isFalse hbk => exact h b
  | markAsTrustedSeen key =>
    intro b
    simp only [applyOp, markAsTrustedSeen, Function.update_apply]
    split
    case isTrue hbk =>
      constructor
      · show TTL_trusted ≤ 30
        decide
      · show TTL_trusted ≤ TTL_not_trusted + 20
        decide
    case isFalse hbk => exact h b
  | checkSquawk key v =>
    intro b
    rw [show (applyOp (Op.checkSquawk key v) s).table = s.table from
      checkSquawk_table ⟨key⟩ v s]
    exact h b
  | checkAltitude key v =>
    intro b
    rw [show (applyOp (Op.checkAltitude key v) s).table = s.table from
      checkAltitude_table ⟨key⟩ v s]
    exact h b
  | tick =>
    intro b
    simp only [applyOp, tick]
    split
    · exact h b
    · by_cases hbt : b = (s.time1Mhz + 1) % 1000000
      · rw [← hbt]
        exact doTickForEntry_bound (h b)
      · rw [doTickForEntry_other _ hbt]
        exact h b

lemma trustBound_run (ops : List Op) :
    ∀ s, TrustBound s → TrustBound (run ops s) := by
  induction ops with
  | nil => exact fun s hs => hs
  | cons op rest ih =>
    intro s hs
    rw [run_cons]
    exact ih _ (trustBound_applyOp hs op)

end ICAOTable

/-- C5 counterexample: insert key 1, mark it trusted-seen, and let ten sweep
seconds pass with no further traffic.  The entry then has `ttl_trusted = 20`
but `ttl = 0`, so the claimed invariant `ttl_trusted > 0 → ttl > 0` fails in
a reachable state. -/
theorem icao_ttl_invariant_counterexample :
    ¬ (∀ b, ((ICAOTable.run ICAOTable.c5ops ICAOTable.State.init).table b).ttl_trusted > 0 →
        ((ICAOTable.run ICAOTable.c5ops ICAOTable.State.init).table b).ttl > 0) := by
  intro hinv
  have h := hinv 1
  rw [ICAOTable.c5_final] at h
  have h20 : ((ICAOTable.c5state 10).table 1).ttl_trusted = 20 := by decide
  have h0 : ((ICAOTable.c5state 10).table 1).ttl = 0 := by decide
  omega

/-- C5 amended: in every reachable `ICAOTable` state, an entry's
`ttl_trusted` exceeds its `ttl` by at most `TTL_trusted - TTL_not_trusted`
(= 20 sweep seconds); the unconditional implication `ttl_trusted > 0 → ttl >
0` does not hold because `ttl` reaches zero up to 20 sweep seconds before
`ttl_trusted` does. -/
theorem icao_ttl_trust_bound (ops : List ICAOTable.Op) (b : Nat) :
    ((ICAOTable.run ops ICAOTable.State.init).table b).ttl_trusted ≤
      ((ICAOTable.run ops ICAOTable.State.init).table b).ttl +
        (ICAOTable.TTL_trusted - ICAOTable.TTL_not_trusted) :=
  (ICAOTable.trustBound_run ops ICAOTable.State.init ICAOTable.trustBound_init b).2

/-! ## DemodCore (`src/include/DemodCore.hpp`)

The dispatcher is embedded at the granularity of its handler functions: one
`DOp` corresponds to one stream slot whose cached downlink format selected
that handler (plus a `tick` op for the once-per-sample `m_cache.tick()`
call).  The CRC accumulator a handler reads is, by the C1 invariant, the
`CRC::compute` of the extracted frame, so handlers receive the frame and
its recomputed CRC. -/

namespace DemodCore

open ICAOTable

/-- Modelled from the spec: `ModeS::extractICAOWithCA_Short` is called by
`DemodCore` but absent from `src/`; the spec says the DF11 handler extracts
the 27-bit ICAO+CA field, and the shipped `ModeS::DF11_extractICAOWithCA`
reads `(low >> 24) & 0x7ffffff`. -/
def extractICAOWithCA_Short (frameShort : Nat) : Nat :=
  (frameShort >>> 24) &&& 0x7ffffff

/-- Modelled from the spec: `ModeS::extractICAOWithCA_Long` is called by
`DemodCore` but absent from `src/`; the spec says the extended-squitter
handler extracts the 27-bit ICAO+CA field, and the shipped
`ModeS::DF17_extractICAOWithCA` reads `(high >> 16) & 0x7ffffff`. -/
def extractICAOWithCA_Long (frame : Bits128) : Nat :=
  (frame.high >>> 16) &&& 0x7ffffff

/-- Modelled from the spec: `ModeS::extractSquawkAlt_Short/_Long` and
`ModeS::decodeAltitude` are absent from `src/`.  The spec says the DF 0/4
(16/20) handlers extract and decode the 13-bit altitude field and the DF 5
(21) handlers the 13-bit squawk; their compositions are abstracted as
parameters of the embedding. -/
structure Decoders where
  altShort : Nat → Nat
  sqwkShort : Nat → Nat
  altLong : Bits128 → Nat
  sqwkLong : Bits128 → Nat

/-- One emitted output line (`ModeS::printFrame*MLAT`); the MLAT timestamp
rendering is abstracted away, the emitted frame is kept. -/
inductive OutLine where
  | short (frame : Nat)
  | long (frame : Bits128)
deriving DecidableEq, Repr

/-- The `DemodCore` member state (stats logging omitted).  In the source,
`m_prevShortFrame` and `m_prevFrameShortSent` are default-initialized
`uint64_t` members (indeterminate in C++); they are modelled as 0. -/
structure DState where
  prevLongFrame : Bits128
  prevShortFrame : Nat
  prevFrameLongSent : Bits128
  prevTimeLongSent : Nat
  prevFrameShortSent : Nat
  prevTimeShortSent : Nat
  currTime : Nat
  cache : ICAOTable.State
  output : List OutLine

/-- The freshly constructed `DemodCore`. -/
def DState.init : DState :=
  { prevLongFrame := ⟨0, 0⟩
    prevShortFrame := 0
    prevFrameLongSent := ⟨0, 0⟩
    prevTimeLongSent := 0
    prevFrameShortSent := 0
    prevTimeShortSent := 0
    currTime := 0
    cache := ICAOTable.State.init
    output := [] }

/-- Append a short MLAT line and update the duplicate-suppression fields. -/
def emitShort (frameShort : Nat) (st : DState) : DState :=
  { st with
    prevFrameShortSent := frameShort
    prevTimeShortSent := st.currTime
    output := (st.output ++ [OutLine.short frameShort]) }

/-- Append a long MLAT line and update the duplicate-suppression fields. -/
def emitLong (frame : Bits128) (st : DState) : DState :=
  { st with
    prevFrameLongSent := frame
    prevTimeLongSent := st.currTime
    output := (st.output ++ [OutLine.long frame]) }

/-- `DemodCore::sendFrameShortAligned`: already-emitted duplicate gate,
altitude plausibility for DF 4/0, squawk plausibility for DF 5, then emit. -/
def sendFrameShortAligned (N : Nat) (dec : Decoders) (downlinkFormat : Nat)
    (frameShort : Nat) (it : ICAOTable.Iterator) (st : DState) : Bool × DState :=
  if st.currTime - st.prevTimeShortSent < N ∧ st.prevFrameShortSent = frameShort then
    (false, st)
  else
    if downlinkFormat = 4 ∨ downlinkFormat = 0 then
      if (ICAOTable.checkAltitude it (dec.altShort frameShort) st.cache).1 then
        (true, emitShort frameShort
          { st with cache := (ICAOTable.markAsSeen it
              (ICAOTable.checkAltitude it (dec.altShort frameShort) st.cache).2) })
      else
        (false, { st with cache :=
          ((ICAOTable.checkAltitude it (dec.altShort frameShort) st.cache).2) })
    else if downlinkFormat = 5 then
      if (ICAOTable.checkSquawk it (dec.sqwkShort frameShort) st.cache).1 then
        (true, emitShort frameShort
          { st with cache := (ICAOTable.markAsSeen it
              (ICAOTable.checkSquawk it (dec.sqwkShort frameShort) st.cache).2) })
      else
        (false, { st with cache :=
          ((ICAOTable.checkSquawk it (dec.sqwkShort frameShort) st.cache).2) })
    else
      (true, emitShort frameShort st)

/-- `DemodCore::sendFrameLongAligned`: duplicate gate, altitude plausibility
for DF 20/16, squawk plausibility for DF 21, then emit. -/
def sendFrameLongAligned (N : Nat) (dec : Decoders) (downlinkFormat : Nat)
    (frame : Bits128) (it : ICAOTable.Iterator) (st : DState) : Bool × DState :=
  if st.currTime - st.prevTimeLongSent < N ∧ st.prevFrameLongSent = frame then
    (false, st)
  else
    if downlinkFormat = 20 ∨ downlinkFormat = 16 then
      if (ICAOTable.checkAltitude it (dec.altLong frame) st.cache).1 then
        (true, emitLong frame
          { st with cache := (ICAOTable.markAsSeen it
              (ICAOTable.checkAltitude it (dec.altLong frame) st.cache).2) })
      else
        (false, { st with cache :=
          ((ICAOTable.checkAltitude it (dec.altLong frame) st.cache).2) })
    else if downlinkFormat = 21 then
      if (ICAOTable.checkSquawk it (dec.sqwkLong frame) st.cache).1 then
        (true, emitLong frame
          { st with cache := (ICAOTable.markAsSeen it
              (ICAOTable.checkSquawk it (dec.sqwkLong frame) st.cache).2) })
      else
        (false, { st with cache :=
          ((ICAOTable.checkSquawk it (dec.sqwkLong frame) st.cache).2) })
    else
      (true, emitLong frame st)

/-- `DemodCore::phaseDupCheckShort`. -/
def phaseDupCheckShort (frameShort : Nat) (st : DState) : Bool × DState :=
  if frameShort = st.prevShortFrame then (true, st)
  else (false, { st with prevShortFrame := frameShort })

/-- `DemodCore::phaseDupCheckLong`. -/
def phaseDupCheckLong (frame : Bits128) (st : DState) : Bool × DState :=
  if frame = st.prevLongFrame then (true, st)
  else (false, { st with prevLongFrame := frame })

/-- `DemodCore::handleDF11ShortMessageWithZeroCRC`: look up the ICAO+CA; on
a miss insert (only if not repaired) and do not emit; when present and
alive, mark seen and emit; when present but expired, just mark seen. -/
def handleDF11ShortMessageWithZeroCRC (N : Nat) (dec : Decoders)
    (frameShort : Nat) (repaired : Bool) (st : DState) : Bool × DState :=
  if (ICAOTable.findWithCA (extractICAOWithCA_Short frameShort) st.cache).isValid then
    if ICAOTable.isAlive (ICAOTable.findWithCA (extractICAOWithCA_Short frameShort) st.cache)
        st.cache then
      sendFrameShortAligned N dec 11 frameShort
        (ICAOTable.findWithCA (extractICAOWithCA_Short frameShort) st.cache)
        { st with cache := (ICAOTable.markAsSeen
            (ICAOTable.findWithCA (extractICAOWithCA_Short frameShort) st.cache) st.cache) }
    else
      (false, { st with cache := (ICAOTable.markAsSeen
          (ICAOTable.findWithCA (extractICAOWithCA_Short frameShort) st.cache) st.cache) })
  else
    if repaired then (false, st)
    else (false, { st with cache :=
      ((ICAOTable.insertWithCA (extractICAOWithCA_Short frameShort) st.cache).2) })

/-- `DemodCore::handleDF11ShortMessage`: phase-duplicate gate, then the
clean-CRC path, the error-table repair path, or the last-resort
parity-overwrite path for trusted senders. -/
def handleDF11ShortMessage (N : Nat) (dec : Decoders)
    (frameShort crc : Nat) (st : DState) : Bool × DState :=
  if (phaseDupCheckShort frameShort st).1 then (false, st)
  else
    if crc = 0 then
      handleDF11ShortMessageWithZeroCRC N dec frameShort false
        (phaseDupCheckShort frameShort st).2
    else
      if (CRC.df11ErrorTable.lookup crc).valid then
        handleDF11ShortMessageWithZeroCRC N dec
          (CRC.applyFixOpShort (CRC.df11ErrorTable.lookup crc) frameShort 0) true
          (phaseDupCheckShort frameShort st).2
      else
        if (ICAOTable.findWithCA (extractICAOWithCA_Short frameShort)
              (phaseDupCheckShort frameShort st).2.cache).isValid ∧
           ICAOTable.isTrusted
             (ICAOTable.findWithCA (extractICAOWithCA_Short frameShort)
               (phaseDupCheckShort frameShort st).2.cache)
             (phaseDupCheckShort frameShort st).2.cache then
          sendFrameShortAligned N dec 11 (frameShort ^^^ crc)
            (ICAOTable.findWithCA (extractICAOWithCA_Short frameShort)
              (phaseDupCheckShort frameShort st).2.cache)
            { (phaseDupCheckShort frameShort st).2 with
              cache := (ICAOTable.markAsSeen
                (ICAOTable.findWithCA (extractICAOWithCA_Short frameShort)
                  (phaseDupCheckShort frameShort st).2.cache)
                (phaseDupCheckShort frameShort st).2.cache) }
        else
          (false, (phaseDupCheckShort frameShort st).2)

/-- `DemodCore::handleExtSquitterLongMessage`: phase-duplicate gate; clean
CRC marks trusted-seen (inserting on a miss, without emitting); non-zero
CRC consults the DF17 error table and emits a repaired frame only for an
already-trusted address. -/
def handleExtSquitterLongMessage (N : Nat) (dec : Decoders)
    (frame : Bits128) (crc : Nat) (downlinkFormat : Nat) (st : DState) : Bool × DState :=
  if (phaseDupCheckLong frame st).1 then (false, st)
  else
    if crc = 0 then
      if (ICAOTable.findWithCA (extractICAOWithCA_Long frame)
            (phaseDupCheckLong frame st).2.cache).isValid then
        sendFrameLongAligned N dec downlinkFormat frame
          (ICAOTable.findWithCA (extractICAOWithCA_Long frame)
            (phaseDupCheckLong frame st).2.cache)
          { (phaseDupCheckLong frame st).2 with
            cache := (ICAOTable.markAsTrustedSeen
              (ICAOTable.findWithCA (extractICAOWithCA_Long frame)
                (phaseDupCheckLong frame st).2.cache)
              (phaseDupCheckLong frame st).2.cache) }
      else
        (false, { (phaseDupCheckLong frame st).2 with
          cache := (ICAOTable.markAsTrustedSeen
            (ICAOTable.insertWithCA (extractICAOWithCA_Long frame)
              (phaseDupCheckLong frame st).2.cache).1
            (ICAOTable.insertWithCA (extractICAOWithCA_Long frame)
              (phaseDupCheckLong frame st).2.cache).2) })
    else
      if (CRC.df17ErrorTable.lookup crc).valid then
        if (ICAOTable.findWithCA
              (extractICAOWithCA_Long
                (CRC.applyFixOp (CRC.df17ErrorTable.lookup crc) frame 0))
              (phaseDupCheckLong frame st).2.cache).isValid then
          if ICAOTable.isTrusted
              (ICAOTable.findWithCA
                (extractICAOWithCA_Long
                  (CRC.applyFixOp (CRC.df17ErrorTable.lookup crc) frame 0))
                (phaseDupCheckLong frame st).2.cache)
              (phaseDupCheckLong frame st).2.cache then
            sendFrameLongAligned N dec downlinkFormat
              (CRC.applyFixOp (CRC.df17ErrorTable.lookup crc) frame 0)
              (ICAOTable.findWithCA
                (extractICAOWithCA_Long
                  (CRC.applyFixOp (CRC.df17ErrorTable.lookup crc) frame 0))
                (phaseDupCheckLong frame st).2.cache)
              { (phaseDupCheckLong frame st).2 with
                cache := (ICAOTable.markAsTrustedSeen
                  (ICAOTable.findWithCA
                    (extractICAOWithCA_Long
                      (CRC.applyFixOp (CRC.df17ErrorTable.lookup crc) frame 0))
                    (phaseDupCheckLong frame st).2.cache)
                  (phaseDupCheckLong frame st).2.cache) }
          else (false, (phaseDupCheckLong frame st).2)
        else (false, (phaseDupCheckLong frame st).2)
      else (false, (phaseDupCheckLong frame st).2)

/-- `DemodCore::handleAcasSurvShortMessage` (DF 0/4/5): address parity,
only known alive addresses may emit. -/
def handleAcasSurvShortMessage (N : Nat) (dec : Decoders)
    (frameShort crc : Nat) (downlinkFormat : Nat) (st : DState) : Bool × DState :=
  if (phaseDupCheckShort frameShort st).1 then (false, st)
  else
    if crc = 0 then (false, (phaseDupCheckShort frameShort st).2)
    else
      if (ICAOTable.find crc (phaseDupCheckShort frameShort st).2.cache).isValid then
        if ICAOTable.isAlive (ICAOTable.find crc (phaseDupCheckShort frameShort st).2.cache)
            (phaseDupCheckShort frameShort st).2.cache then
          sendFrameShortAligned N dec downlinkFormat frameShort
            (ICAOTable.find crc (phaseDupCheckShort frameShort st).2.cache)
            (phaseDupCheckShort frameShort st).2
        else (false, (phaseDupCheckShort frameShort st).2)
      else (false, (phaseDupCheckShort frameShort st).2)

/-- `DemodCore::handleAcasCommBLongMessage` (DF 16/20/21). -/
def handleAcasCommBLongMessage (N : Nat) (dec : Decoders)
    (frame : Bits128) (crc : Nat) (downlinkFormat : Nat) (st : DState) : Bool × DState :=
  if (phaseDupCheckLong frame st).1 then (false, st)
  else
    if crc = 0 then (false, (phaseDupCheckLong frame st).2)
    else
      if (ICAOTable.find crc (phaseDupCheckLong frame st).2.cache).isValid then
        if ICAOTable.isAlive (ICAOTable.find crc (phaseDupCheckLong frame st).2.cache)
            (phaseDupCheckLong frame st).2.cache then
          sendFrameLongAligned N dec downlinkFormat frame
            (ICAOTable.find crc (phaseDupCheckLong frame st).2.cache)
            (phaseDupCheckLong frame st).2
        else (false, (phaseDupCheckLong frame st).2)
      else (false, (phaseDupCheckLong frame st).2)

/-- One dispatcher event: the once-per-sample cache tick, or one stream
slot whose cached downlink format selected a handler.  Handler slots
advance `m_currTime` by one as in the `shiftInNewBits` loop. -/
inductive DOp where
  | tick
  | df11 (frameShort : Nat)
  | extSquitter (frame : Bits128) (downlinkFormat : Nat)
  | acasSurv (frameShort : Nat) (downlinkFormat : Nat)
  | acasCommB (frame : Bits128) (downlinkFormat : Nat)

/-- Apply one dispatcher event.  Handlers receive the CRC accumulator value,
which by the C1 invariant equals `CRC::compute` of the extracted frame. -/
def applyDOp (N : Nat) (dec : Decoders) (op : DOp) (st : DState) : DState :=
  match op with
  | .tick => { st with cache := (ICAOTable.tick st.cache) }
  | .df11 f =>
    { (handleDF11ShortMessage N dec f (CRC.compute 56 ⟨f, 0⟩) st).2 with
      currTime := st.currTime + 1 }
  | .extSquitter frame df =>
    { (handleExtSquitterLongMessage N dec frame (CRC.compute 112 frame) df st).2 with
      currTime := st.currTime + 1 }
  | .acasSurv f df =>
    { (handleAcasSurvShortMessage N dec f (CRC.compute 56 ⟨f, 0⟩) df st).2 with
      currTime := st.currTime + 1 }
  | .acasCommB frame df =>
    { (handleAcasCommBLongMessage N dec frame (CRC.compute 112 frame) df st).2 with
      currTime := st.currTime + 1 }

/-- Run a sequence of dispatcher events. -/
def runD (N : Nat) (dec : Decoders) (ops : List DOp) (st : DState) : DState :=
  ops.foldl (fun t op => applyDOp N dec op t) st

end DemodCore

/-! ### C10: a zero stored altitude reference rejects the first reading -/

namespace DemodCore

/-- A concrete decoder assignment for closed evaluations. -/
def dec0 : Decoders :=
  ⟨fun _ => 0, fun _ => 0, fun _ => 0, fun _ => 0⟩

lemma checkAltitude_zero_stored (it : ICAOTable.Iterator) (v : Nat)
    (s : ICAOTable.State) (h : (s.squawkAlt it.key).altitude = 0) :
    ICAOTable.checkAltitude it v s =
      (false, { s with squawkAlt := (Function.update s.squawkAlt it.key
        { s.squawkAlt it.key with altitude := v % 2^13, altitude_cnt := 0 }) }) := by
  unfold ICAOTable.checkAltitude
  rw [if_pos h]

lemma sendFrameLongAligned_zeroAlt (N : Nat) (dec : Decoders) (df : Nat)
    (frame : Bits128) (it : ICAOTable.Iterator) (st : DState)
    (hdf : df = 20 ∨ df = 16)
    (hzero : (st.cache.squawkAlt it.key).altitude = 0) :
    sendFrameLongAligned N dec df frame it st =
      if st.currTime - st.prevTimeLongSent < N ∧ st.prevFrameLongSent = frame then
        (false, st)
      else
        (false, { st with cache :=
          ((ICAOTable.checkAltitude it (dec.altLong frame) st.cache).2) }) := by
  unfold sendFrameLongAligned
  by_cases h : st.currTime - st.prevTimeLongSent < N ∧ st.prevFrameLongSent = frame
  · rw [if_pos h, if_pos h]
  · rw [if_neg h, if_neg h, if_pos hdf,
      checkAltitude_zero_stored it (dec.altLong frame) st.cache hzero]
    simp

lemma sendFrameShortAligned_zeroAlt (N : Nat) (dec : Decoders) (df : Nat)
    (frameShort : Nat) (it : ICAOTable.Iterator) (st : DState)
    (hdf : df = 4 ∨ df = 0)
    (hzero : (st.cache.squawkAlt it.key).altitude = 0) :
    sendFrameShortAligned N dec df frameShort it st =
      if st.currTime - st.prevTimeShortSent < N ∧ st.prevFrameShortSent = frameShort then
        (false, st)
      else
        (false, { st with cache :=
          ((ICAOTable.checkAltitude it (dec.altShort frameShort) st.cache).2) }) := by
  unfold sendFrameShortAligned
  by_cases h : st.currTime - st.prevTimeShortSent < N ∧ st.prevFrameShortSent = frameShort
  · rw [if_pos h, if_pos h]
  · rw [if_neg h, if_neg h, if_pos hdf,
      checkAltitude_zero_stored it (dec.altShort frameShort) st.cache hzero]
    simp

end DemodCore

/-- **C10.**  A cache entry whose stored altitude reference is zero rejects
every new altitude reading `a`: `checkAltitude` returns `false` and stores
`a` (with the hysteresis counter cleared) as the new reference, and neither
`sendFrameLongAligned` (DF 20/16) nor `sendFrameShortAligned` (DF 4/0)
emits a line for that entry on that reading. -/
theorem altitude_first_reading_rejected (N : Nat) (dec : DemodCore.Decoders)
    (df dfS : Nat) (frame : Bits128) (frameShort : Nat) (it : ICAOTable.Iterator)
    (st : DemodCore.DState) (a : Nat)
    (hzero : (st.cache.squawkAlt it.key).altitude = 0) (ha : a < 2^13)
    (hdf : df = 20 ∨ df = 16) (hdfS : dfS = 4 ∨ dfS = 0) :
    (ICAOTable.checkAltitude it a st.cache).1 = false ∧
    (((ICAOTable.checkAltitude it a st.cache).2).squawkAlt it.key).altitude = a ∧
    (((ICAOTable.checkAltitude it a st.cache).2).squawkAlt it.key).altitude_cnt = 0 ∧
    (DemodCore.sendFrameLongAligned N dec df frame it st).1 = false ∧
    (DemodCore.sendFrameLongAligned N dec df frame it st).2.output = st.output ∧
    (DemodCore.sendFrameShortAligned N dec dfS frameShort it st).1 = false ∧
    (DemodCore.sendFrameShortAligned N dec dfS frameShort it st).2.output = st.output := by
  have hca := DemodCore.checkAltitude_zero_stored it a st.cache hzero
  have hl := DemodCore.sendFrameLongAligned_zeroAlt N dec df frame it st hdf hzero
  have hs := DemodCore.sendFrameShortAligned_zeroAlt N dec dfS frameShort it st hdfS hzero
  refine ⟨?_, ?_, ?_, ?_, ?_, ?_, ?_⟩
  · rw [hca]
  · rw [hca]
    show (Function.update st.cache.squawkAlt it.key
      { st.cache.squawkAlt it.key with altitude := a % 2^13, altitude_cnt := 0 }
        it.key).altitude = a
    rw [Function.update_same]
    exact Nat.mod_eq_of_lt ha
  · rw [hca]
    show (Function.update st.cache.squawkAlt it.key
      { st.cache.squawkAlt it.key with altitude := a % 2^13, altitude_cnt := 0 }
        it.key).altitude_cnt = 0
    rw [Function.update_same]
  · rw [hl]; split <;> rfl
  · rw [hl]; split <;> rfl
  · rw [hs]; split <;> rfl
  · rw [hs]; split <;> rfl

/-- Closed instantiation of the C10 theorem: bucket 1 of the fresh cache
has a zero altitude reference and rejects the first reading `5`. -/
theorem altitude_first_reading_rejected_witness :
    ((DemodCore.DState.init.cache.squawkAlt
        (ICAOTable.Iterator.mk 1).key).altitude = 0 ∧ (5:Nat) < 2^13) ∧
    ((ICAOTable.checkAltitude ⟨1⟩ 5 DemodCore.DState.init.cache).1 = false ∧
     (((ICAOTable.checkAltitude ⟨1⟩ 5 DemodCore.DState.init.cache).2).squawkAlt
        (ICAOTable.Iterator.mk 1).key).altitude = 5 ∧
     (((ICAOTable.checkAltitude ⟨1⟩ 5 DemodCore.DState.init.cache).2).squawkAlt
        (ICAOTable.Iterator.mk 1).key).altitude_cnt = 0 ∧
     (DemodCore.sendFrameLongAligned 8 DemodCore.dec0 20 ⟨0, 0⟩ ⟨1⟩
        DemodCore.DState.init).1 = false ∧
     (DemodCore.sendFrameLongAligned 8 DemodCore.dec0 20 ⟨0, 0⟩ ⟨1⟩
        DemodCore.DState.init).2.output = DemodCore.DState.init.output ∧
     (DemodCore.sendFrameShortAligned 8 DemodCore.dec0 4 0 ⟨1⟩
        DemodCore.DState.init).1 = false ∧
     (DemodCore.sendFrameShortAligned 8 DemodCore.dec0 4 0 ⟨1⟩
        DemodCore.DState.init).2.output = DemodCore.DState.init.output) :=
  ⟨⟨rfl, by decide⟩,
   altitude_first_reading_rejected 8 DemodCore.dec0 20 4 ⟨0, 0⟩ 0 ⟨1⟩
     DemodCore.DState.init 5 rfl (by decide) (Or.inl rfl) (Or.inl rfl)⟩

/-! ### C4: clean DF11 reception behavior -/

namespace DemodCore

lemma handleDF11_zero_crc (N : Nat) (dec : Decoders) (f : Nat) (st : DState)
    (hne : f ≠ st.prevShortFrame) :
    handleDF11ShortMessage N dec f 0 st =
      handleDF11ShortMessageWithZeroCRC N dec f false
        { st with prevShortFrame := f } := by
  have hpd : phaseDupCheckShort f st = (false, { st with prevShortFrame := f }) := by
    unfold phaseDupCheckShort
    rw [if_neg hne]
  unfold handleDF11ShortMessage
  rw [hpd]
  simp

lemma handleDF11_zero_crc_miss (N : Nat) (dec : Decoders) (f : Nat) (st : DState)
    (hmiss : (ICAOTable.findWithCA (extractICAOWithCA_Short f) st.cache).isValid = false) :
    handleDF11ShortMessageWithZeroCRC N dec f false st =
      (false, { st with cache :=
        ((ICAOTable.insertWithCA (extractICAOWithCA_Short f) st.cache).2) }) := by
  unfold handleDF11ShortMessageWithZeroCRC
  rw [hmiss]
  simp

end DemodCore

/-- The data bits of a clean DF11 frame with ICAO+CA = 1 (DF field 11 in
bits 51..55, key in bits 24..50, parity bits zero). -/
def c4data1 : Nat := (11 <<< 51) ||| (1 <<< 24)

/-- The clean DF11 frame for key 1: data plus its own Mode S parity. -/
def c4f11 : Nat := c4data1 ||| CRC.compute 56 ⟨c4data1, 0⟩

/-- The data bits of a clean DF11 frame with ICAO+CA = 2. -/
def c4data2 : Nat := (11 <<< 51) ||| (2 <<< 24)

/-- The clean DF11 frame for key 2. -/
def c4g11 : Nat := c4data2 ||| CRC.compute 56 ⟨c4data2, 0⟩

set_option maxRecDepth 100000 in
/-- **C4 counterexample.**  Processing the same clean DF11 frame twice in a
row (well within 10 s — no tick in between) emits no output line at all,
not exactly one: the phase-duplicate gate drops the identical repeat, and
even a non-identical repeat would find the entry not yet alive. -/
theorem df11_second_reception_counterexample :
    ¬ ((DemodCore.runD 8 DemodCore.dec0
        [DemodCore.DOp.df11 c4f11, DemodCore.DOp.df11 c4f11]
        DemodCore.DState.init).output.length = 1) := by
  decide

set_option maxRecDepth 100000 in
/-- **C4 (amended).**  A clean DF11 frame whose ICAO+CA is absent from the
cache is never emitted: the handler returns false, leaves the output
untouched and inserts the key with a cleared trust flag (`insertWithCA`).
An immediately repeated identical frame is dropped by the phase-duplicate
gate (empty output after two receptions); the frame is first emitted on its
third reception, after intervening distinct DF11 traffic has both defeated
the duplicate gate and marked the entry alive. -/
theorem df11_clean_first_and_repeat_reception :
    (∀ (N : Nat) (dec : DemodCore.Decoders) (f : Nat) (st : DemodCore.DState),
      f ≠ st.prevShortFrame →
      (ICAOTable.findWithCA (DemodCore.extractICAOWithCA_Short f) st.cache).isValid
        = false →
      (DemodCore.handleDF11ShortMessage N dec f 0 st).1 = false ∧
      (DemodCore.handleDF11ShortMessage N dec f 0 st).2.output = st.output ∧
      (DemodCore.handleDF11ShortMessage N dec f 0 st).2.cache =
        (ICAOTable.insertWithCA (DemodCore.extractICAOWithCA_Short f) st.cache).2 ∧
      ((DemodCore.handleDF11ShortMessage N dec f 0 st).2.cache.table
        (DemodCore.extractICAOWithCA_Short f &&& ICAOTable.HashMask)).trusted = 0) ∧
    (DemodCore.runD 8 DemodCore.dec0
        [DemodCore.DOp.df11 c4f11, DemodCore.DOp.df11 c4f11]
        DemodCore.DState.init).output = [] ∧
    (DemodCore.runD 8 DemodCore.dec0
        [DemodCore.DOp.df11 c4f11, DemodCore.DOp.df11 c4g11, DemodCore.DOp.df11 c4f11,
          DemodCore.DOp.df11 c4g11, DemodCore.DOp.df11 c4f11]
        DemodCore.DState.init).output = [DemodCore.OutLine.short c4f11] := by
  refine ⟨?_, by decide, by decide⟩
  intro N dec f st hne hmiss
  rw [DemodCore.handleDF11_zero_crc N dec f st hne,
    DemodCore.handleDF11_zero_crc_miss N dec f { st with prevShortFrame := f } hmiss]
  refine ⟨rfl, rfl, rfl, ?_⟩
  show (Function.update st.cache.table
      (DemodCore.extractICAOWithCA_Short f &&& ICAOTable.HashMask)
      { st.cache.table (DemodCore.extractICAOWithCA_Short f &&& ICAOTable.HashMask) with
          icao := DemodCore.extractICAOWithCA_Short f % 2^27, trusted := 0 }
      (DemodCore.extractICAOWithCA_Short f &&& ICAOTable.HashMask)).trusted = 0
  rw [Function.update_same]

set_option maxRecDepth 100000 in
/-- Closed instantiation of the general clause of the C4 theorem at the
concrete clean DF11 frame `c4f11` and the fresh demodulator state. -/
theorem df11_clean_first_and_repeat_reception_witness :
    (c4f11 ≠ DemodCore.DState.init.prevShortFrame ∧
     (ICAOTable.findWithCA (DemodCore.extractICAOWithCA_Short c4f11)
        DemodCore.DState.init.cache).isValid = false) ∧
    ((DemodCore.handleDF11ShortMessage 8 DemodCore.dec0 c4f11 0
        DemodCore.DState.init).1 = false ∧
     (DemodCore.handleDF11ShortMessage 8 DemodCore.dec0 c4f11 0
        DemodCore.DState.init).2.output = DemodCore.DState.init.output ∧
     (DemodCore.handleDF11ShortMessage 8 DemodCore.dec0 c4f11 0
        DemodCore.DState.init).2.cache =
       (ICAOTable.insertWithCA (DemodCore.extractICAOWithCA_Short c4f11)
          DemodCore.DState.init.cache).2 ∧
     ((DemodCore.handleDF11ShortMessage 8 DemodCore.dec0 c4f11 0
        DemodCore.DState.init).2.cache.table
       (DemodCore.extractICAOWithCA_Short c4f11 &&& ICAOTable.HashMask)).trusted = 0) :=
  ⟨⟨by decide, by decide⟩,
   df11_clean_first_and_repeat_reception.1 8 DemodCore.dec0 c4f11
     DemodCore.DState.init (by decide) (by decide)⟩

/-! ### C2: which paths can confer trust -/

namespace ICAOTable

lemma Iterator.eta (it : Iterator) : (⟨it.key⟩ : Iterator) = it := rfl

lemma insertWithCA_tt (k : Nat) (c : State) (b : Nat) :
    (((insertWithCA k c).2).table b).ttl_trusted = (c.table b).ttl_trusted := by
  show (Function.update c.table (k &&& HashMask)
    { c.table (k &&& HashMask) with icao := k % 2^27, trusted := 0 } b).ttl_trusted
      = (c.table b).ttl_trusted
  rw [Function.update_apply]
  split
  case isTrue h => subst h; rfl
  case isFalse h => rfl

lemma markAsSeen_tt (it : Iterator) (c : State) (b : Nat) :
    ((markAsSeen it c).table b).ttl_trusted = (c.table b).ttl_trusted := by
  show (Function.update c.table it.key
    { c.table it.key with ttl := TTL_not_trusted } b).ttl_trusted
      = (c.table b).ttl_trusted
  rw [Function.update_apply]
  split
  case isTrue h => subst h; rfl
  case isFalse h => rfl

lemma markAsSeen_table_other (it : Iterator) (c : State) {b : Nat} (h : b ≠ it.key) :
    (markAsSeen it c).table b = c.table b := by
  show Function.update c.table it.key
    { c.table it.key with ttl := TTL_not_trusted } b = c.table b
  rw [Function.update_noteq h]

lemma markAsTrustedSeen_table_other (it : Iterator) (c : State) {b : Nat}
    (h : b ≠ it.key) :
    (markAsTrustedSeen it c).table b = c.table b := by
  show Function.update c.table it.key
    { c.table it.key with ttl_trusted := TTL_trusted, ttl := TTL_not_trusted } b
      = c.table b
  rw [Function.update_noteq h]

end ICAOTable

namespace DemodCore

lemma phaseDupShort_snd_cache (f : Nat) (st : DState) :
    (phaseDupCheckShort f st).2.cache = st.cache := by
  unfold phaseDupCheckShort
  split <;> rfl

lemma phaseDupLong_snd_cache (frame : Bits128) (st : DState) :
    (phaseDupCheckLong frame st).2.cache = st.cache := by
  unfold phaseDupCheckLong
  split <;> rfl

lemma send11_cache (N : Nat) (dec : Decoders) (fr : Nat) (it : ICAOTable.Iterator)
    (st : DState) :
    (sendFrameShortAligned N dec 11 fr it st).2.cache = st.cache := by
  unfold sendFrameShortAligned
  rw [if_neg (show ¬((11:Nat) = 4 ∨ (11:Nat) = 0) from by decide),
    if_neg (show ¬((11:Nat) = 5) from by decide)]
  split <;> rfl

lemma sendLong_table_other (N : Nat) (dec : Decoders) (df : Nat) (frame : Bits128)
    (it : ICAOTable.Iterator) (st : DState) {b : Nat} (hb : b ≠ it.key) :
    (sendFrameLongAligned N dec df frame it st).2.cache.table b = st.cache.table b := by
  unfold sendFrameLongAligned
  split
  · rfl
  · split
    · split
      · exact (ICAOTable.markAsSeen_table_other it _ hb).trans
          (congrArg (fun f => f b) (ICAOTable.checkAltitude_table it _ st.cache))
      · exact congrArg (fun f => f b) (ICAOTable.checkAltitude_table it _ st.cache)
    · split
      · split
        · exact (ICAOTable.markAsSeen_table_other it _ hb).trans
            (congrArg (fun f => f b) (ICAOTable.checkSquawk_table it _ st.cache))
        · exact congrArg (fun f => f b) (ICAOTable.checkSquawk_table it _ st.cache)
      · rfl

lemma handleDF11Zero_tt (N : Nat) (dec : Decoders) (f : Nat) (rep : Bool)
    (st : DState) (b : Nat) :
    ((handleDF11ShortMessageWithZeroCRC N dec f rep st).2.cache.table b).ttl_trusted
      = (st.cache.table b).ttl_trusted := by
  unfold handleDF11ShortMessageWithZeroCRC
  split
  · split
    · rw [send11_cache]
      exact ICAOTable.markAsSeen_tt _ st.cache b
    · exact ICAOTable.markAsSeen_tt _ st.cache b
  · split
    · rfl
    · exact ICAOTable.insertWithCA_tt _ st.cache b

lemma handleDF11_tt (N : Nat) (dec : Decoders) (f crc : Nat) (st : DState) (b : Nat) :
    ((handleDF11ShortMessage N dec f crc st).2.cache.table b).ttl_trusted
      = (st.cache.table b).ttl_trusted := by
  have hpd : (phaseDupCheckShort f st).2.cache = st.cache := phaseDupShort_snd_cache f st
  unfold handleDF11ShortMessage
  split
  · rfl
  · split
    · rw [handleDF11Zero_tt, hpd]
    · split
      · rw [handleDF11Zero_tt, hpd]
      · split
        · rw [send11_cache]
          exact (ICAOTable.markAsSeen_tt _ _ b).trans
            (congrArg (fun c => (ICAOTable.State.table c b).ttl_trusted) hpd)
        · rw [hpd]

lemma handleExtSq_nonzero_table_nottrusted (N : Nat) (dec : Decoders)
    (frame : Bits128) (crc df : Nat) (st : DState) (hcrc : crc ≠ 0) {b : Nat}
    (hb : ICAOTable.isTrusted ⟨b⟩ st.cache = false) :
    (handleExtSquitterLongMessage N dec frame crc df st).2.cache.table b
      = st.cache.table b := by
  have hpd : (phaseDupCheckLong frame st).2.cache = st.cache :=
    phaseDupLong_snd_cache frame st
  unfold handleExtSquitterLongMessage
  by_cases hdup : (phaseDupCheckLong frame st).1 = true
  · rw [if_pos hdup]
  · rw [if_neg hdup, if_neg hcrc]
    by_cases hlk : (CRC.df17ErrorTable.lookup crc).valid = true
    · rw [if_pos hlk]
      by_cases hfound : (ICAOTable.findWithCA
          (extractICAOWithCA_Long
            (CRC.applyFixOp (CRC.df17ErrorTable.lookup crc) frame 0))
          (phaseDupCheckLong frame st).2.cache).isValid = true
      · rw [if_pos hfound]
        by_cases htr : ICAOTable.isTrusted
            (ICAOTable.findWithCA
              (extractICAOWithCA_Long
                (CRC.applyFixOp (CRC.df17ErrorTable.lookup crc) frame 0))
              (phaseDupCheckLong frame st).2.cache)
            (phaseDupCheckLong frame st).2.cache = true
        · rw [if_pos htr]
          have hbk : b ≠ (ICAOTable.findWithCA
              (extractICAOWithCA_Long
                (CRC.applyFixOp (CRC.df17ErrorTable.lookup crc) frame 0))
              (phaseDupCheckLong frame st).2.cache).key := by
            intro hEq
            rw [← hpd, hEq, ICAOTable.Iterator.eta] at hb
            rw [hb] at htr
            exact Bool.noConfusion htr
          rw [sendLong_table_other _ _ _ _ _ _ hbk]
          exact (ICAOTable.markAsTrustedSeen_table_other _ _ hbk).trans
            (congrArg (fun c => ICAOTable.State.table c b) hpd)
        · rw [if_neg htr]
          exact congrArg (fun c => ICAOTable.State.table c b) hpd
      · rw [if_neg hfound]
        exact congrArg (fun c => ICAOTable.State.table c b) hpd
    · rw [if_neg hlk]
      exact congrArg (fun c => ICAOTable.State.table c b) hpd

end DemodCore

/-- **C2 counterexample** support: a clean DF17 extended squitter with
ICAO+CA = 1 (DF field 17 in bits 107..111, key in bits 80..106, zero
payload, correct parity). -/
def c2frame17 : Bits128 :=
  ⟨CRC.compute 112 ⟨0, (17 <<< 43) ||| (1 <<< 16)⟩, (17 <<< 43) ||| (1 <<< 16)⟩

/-- The C2 prefix trace: one clean DF17 for key 1, then ten idle seconds. -/
def c2preOps : List DemodCore.DOp :=
  DemodCore.DOp.extSquitter c2frame17 17 :: List.replicate 10000000 DemodCore.DOp.tick

/-- The demodulator state right after the clean DF17 reception. -/
def c2stA : DemodCore.DState :=
  DemodCore.applyDOp 8 DemodCore.dec0 (DemodCore.DOp.extSquitter c2frame17 17)
    DemodCore.DState.init

namespace DemodCore

lemma runD_cons (N : Nat) (dec : Decoders) (op : DOp) (l : List DOp) (st : DState) :
    runD N dec (op :: l) st = runD N dec l (applyDOp N dec op st) := rfl

lemma runD_replicate_tick (N : Nat) (dec : Decoders) :
    ∀ (n : Nat) (st : DState),
      runD N dec (List.replicate n DOp.tick) st =
        { st with cache :=
          (ICAOTable.run (List.replicate n ICAOTable.Op.tick) st.cache) } := by
  intro n
  induction n with
  | zero => intro st; rfl
  | succ n ih =>
    intro st
    rw [List.replicate_succ, runD_cons, ih]
    rfl

end DemodCore

set_option maxRecDepth 100000 in
lemma c2stA_cache : c2stA.cache = ICAOTable.c5state 0 := by
  refine ICAOTable.State.ext' (by decide) (fun b => ?_) (fun b => rfl)
  have htab : c2stA.cache.table =
      Function.update (Function.update (fun _ => (⟨0, 0, 0, 0⟩ : ICAOTable.Entry)) 1
        ⟨0, 1, 0, 0⟩) 1 ⟨0, 1, 10, 30⟩ := rfl
  rw [htab, Function.update_idem]
  rfl

set_option maxRecDepth 100000 in
set_option maxHeartbeats 2000000 in
lemma c2_pre_run :
    DemodCore.runD 8 DemodCore.dec0 c2preOps DemodCore.DState.init =
      { c2stA with cache := ICAOTable.c5state 10 } := by
  have h1 : c2preOps = DemodCore.DOp.extSquitter c2frame17 17 ::
      List.replicate 10000000 DemodCore.DOp.tick := rfl
  rw [h1, DemodCore.runD_cons,
    show DemodCore.applyDOp 8 DemodCore.dec0
      (DemodCore.DOp.extSquitter c2frame17 17) DemodCore.DState.init = c2stA from rfl,
    DemodCore.runD_replicate_tick, c2stA_cache,
    show (10000000 : Nat) = 1000000 * 10 from by norm_num,
    ICAOTable.c5_seconds 10 (le_refl 10)]

set_option maxRecDepth 100000 in
/-- **C2 counterexample.**  Trust is not conferred only by clean extended
squitters: after a clean DF17 establishes key 1 and ten idle seconds let its
`ttl` expire while `ttl_trusted` is still 20, the entry is not trusted
(`isTrusted` is false because it is not alive); handling a clean DF11 for
the same key then calls `markAsSeen`, which restores `ttl` and thereby makes
`isTrusted` true again — a DF11 frame promotes a non-trusted entry to
trusted. -/
theorem trust_promotion_counterexample :
    ICAOTable.isTrusted ⟨1⟩
      (DemodCore.runD 8 DemodCore.dec0 c2preOps DemodCore.DState.init).cache
        = false ∧
    ICAOTable.isTrusted ⟨1⟩
      (DemodCore.applyDOp 8 DemodCore.dec0 (DemodCore.DOp.df11 c4f11)
        (DemodCore.runD 8 DemodCore.dec0 c2preOps DemodCore.DState.init)).cache
        = true := by
  rw [c2_pre_run]
  exact ⟨by decide, by decide⟩

/-- **C2 (amended).**  What the DF11 and error-corrected extended-squitter
paths really guarantee: handling any DF11 frame (clean, repaired or
last-resort) never changes any entry's `ttl_trusted`, and handling an
extended squitter whose CRC accumulator is non-zero leaves every
not-currently-trusted entry completely unchanged (only an already-trusted
entry is re-marked).  `markAsTrustedSeen` with a fresh trust budget is
reachable only from the clean extended-squitter path.  The original
monotonicity statement fails only because `isTrusted` also depends on
liveness, which DF11 `markAsSeen` can restore. -/
theorem trust_promotion_discipline (N : Nat) (dec : DemodCore.Decoders)
    (f crc56v : Nat) (frame : Bits128) (crc112v df : Nat)
    (st : DemodCore.DState) (hcrc : crc112v ≠ 0) :
    (∀ b, ((DemodCore.handleDF11ShortMessage N dec f crc56v st).2.cache.table b).ttl_trusted
        = (st.cache.table b).ttl_trusted) ∧
    (∀ b, ICAOTable.isTrusted ⟨b⟩ st.cache = false →
      (DemodCore.handleExtSquitterLongMessage N dec frame crc112v df st).2.cache.table b
        = st.cache.table b) :=
  ⟨fun b => DemodCore.handleDF11_tt N dec f crc56v st b,
   fun b hb => DemodCore.handleExtSq_nonzero_table_nottrusted N dec frame crc112v df
     st hcrc hb⟩

/-- Closed instantiation of the C2 amended theorem at the fresh state. -/
theorem trust_promotion_discipline_witness :
    (1 : Nat) ≠ 0 ∧
    ((DemodCore.handleDF11ShortMessage 8 DemodCore.dec0 0 7
        DemodCore.DState.init).2.cache.table 1).ttl_trusted
      = (DemodCore.DState.init.cache.table 1).ttl_trusted ∧
    (DemodCore.handleExtSquitterLongMessage 8 DemodCore.dec0 ⟨0, 0⟩ 1 17
        DemodCore.DState.init).2.cache.table 1
      = DemodCore.DState.init.cache.table 1 :=
  ⟨by decide,
   (trust_promotion_discipline 8 DemodCore.dec0 0 7 ⟨0, 0⟩ 1 17
     DemodCore.DState.init (by decide)).1 1,
   (trust_promotion_discipline 8 DemodCore.dec0 0 7 ⟨0, 0⟩ 1 17
     DemodCore.DState.init (by decide)).2 1 (by decide)⟩

end Stream1090
